import Mathlib

set_option maxRecDepth 8000

/-!
Verification of the expression engine of `src/app.js` (a scientific-calculator
web page).  The file shallowly embeds the engine's pipeline

  tokenize  (lexer, incl. unary-minus marking and implicit multiplication)
  toRPN2    (shunting-yard parser to postfix)
  evalRPN   (postfix evaluator)
  formatNumber (display formatting boundary)

JavaScript numbers are modelled as an idealized IEEE-style value type `JSNum`:
`NaN`, the two infinities, negative zero and finite values carried as exact
real numbers (double rounding is idealized away; this is the only idealization,
everything else follows the JavaScript source line by line).  The token-level
pipeline is fully computable so concrete runs reduce by `decide`/`rfl`.
-/

namespace Calc

/-! ### Tokens (source: token shapes produced by `tokenize`, `app.js` 66-74) -/

/-- Operator symbols: `+ - * / ^ %` and the unary-minus marker `u-`. -/
inductive OpV where
  | add | sub | mul | div | pow | pct | uminus
deriving DecidableEq, Repr

/-- Function names: the ten identifiers of `app.js` line 136 plus the
postfix-factorial marker `fact` produced for `!` (line 147). -/
inductive FnV where
  | sin | cos | tan | asin | acos | atan | log | ln | sqrt | inv | fact
deriving DecidableEq, Repr

/-- Constant names `pi`, `e`, `ans` (`app.js` 132-134). -/
inductive CV where
  | pi | e | ans
deriving DecidableEq, Repr

/-- The exact value of a decimal numeric literal, as mantissa and decimal
scale: the denoted number is `mant / 10 ^ scale`.  (Kept symbolic so that the
token pipeline is kernel-computable; the evaluator casts it to `ℝ`.) -/
structure NumLit where
  mant : ℕ
  scale : ℕ
deriving DecidableEq, Repr

/-- A lexer token.  The source uses tagged objects
`{type:"num"|"op"|"paren"|"fn"|"const", value:...}`. -/
inductive Tok where
  | num (v : NumLit)
  | op (v : OpV)
  | lparen
  | rparen
  | fn (v : FnV)
  | const (v : CV)
deriving DecidableEq, Repr

/-! ### Lexer (source: `normalizeInput`, `tokenize`, `markUnaryMinus`,
`insertImplicitMultiplication`, `app.js` 75-193) -/

instance {ε α : Type} [DecidableEq ε] [DecidableEq α] : DecidableEq (Except ε α) :=
  fun a b =>
    match a, b with
    | .ok x, .ok y => if h : x = y then .isTrue (by rw [h]) else .isFalse (by simp [h])
    | .error x, .error y => if h : x = y then .isTrue (by rw [h]) else .isFalse (by simp [h])
    | .ok _, .error _ => .isFalse (by simp)
    | .error _, .ok _ => .isFalse (by simp)

/-- Lexer failures (`throw new Error(...)` sites in `tokenize`). -/
inductive LexErr where
  | invalidNumber
  | unknownIdentifier (id : String)
  | unexpectedChar (c : Char)
deriving DecidableEq, Repr

/-- One pass of `String.prototype.replaceAll pat → rep`, on char lists.
Fuel-structural so that concrete runs reduce; `replaceAll` supplies fuel equal
to the input length, which suffices because each step consumes at least one
character (all patterns used are nonempty). -/
def replaceAllF (pat rep : List Char) : ℕ → List Char → List Char
  | 0, s => s
  | _ + 1, [] => []
  | fuel + 1, c :: rest =>
    if pat ≠ [] ∧ pat.isPrefixOf (c :: rest) then
      rep ++ replaceAllF pat rep fuel ((c :: rest).drop pat.length)
    else
      c :: replaceAllF pat rep fuel rest

def replaceAll (pat rep s : List Char) : List Char :=
  replaceAllF pat rep s.length s

/-- `normalizeInput` (`app.js` 75-82): canonicalize the visual symbols
`× ÷ −(minus sign) π Ans` before scanning, in source order. -/
def normalizeInput (s : List Char) : List Char :=
  replaceAll ['A', 'n', 's'] ['a', 'n', 's']
    (replaceAll ['π'] ['p', 'i']
      (replaceAll ['−'] ['-']
        (replaceAll ['÷'] ['/']
          (replaceAll ['×'] ['*'] s))))

/-- The `.replace(/\s+/g, "")` whitespace strip (`app.js` 85); ASCII
whitespace (the claims' inputs contain none). -/
def stripWs (s : List Char) : List Char :=
  s.filter fun c => ¬ (c = ' ' ∨ c = '\t' ∨ c = '\n' ∨ c = '\r' ∨ c = '\x0b' ∨ c = '\x0c')

def isDigit (c : Char) : Bool := '0' ≤ c ∧ c ≤ '9'

def isAlpha (c : Char) : Bool := ('a' ≤ c ∧ c ≤ 'z') ∨ ('A' ≤ c ∧ c ≤ 'Z')

/-- The number-scanning loop of `tokenize` (`app.js` 96-102): consume digits
and dots, stopping (without consuming) at a second dot.  `dots` counts the
dots already consumed. -/
def scanNumber (dots : ℕ) : List Char → List Char
  | [] => []
  | c :: rest =>
    if isDigit c then c :: scanNumber dots rest
    else if c = '.' then
      if dots + 1 > 1 then [] else c :: scanNumber (dots + 1) rest
    else []

def digitsToNat (cs : List Char) : ℕ :=
  cs.foldl (fun a c => 10 * a + (c.toNat - '0'.toNat)) 0

/-- JavaScript `Number(numStr)` on the substring produced by the number scan
(digits with at most one dot): `none` models `NaN` (only the lone-dot case),
triggering `throw new Error("Invalid number")` (`app.js` 105). -/
def parseNumber (cs : List Char) : Option NumLit :=
  let ip := cs.takeWhile isDigit
  match cs.dropWhile isDigit with
  | [] => some ⟨digitsToNat ip, 0⟩
  | '.' :: fp =>
    if ip = [] ∧ fp = [] then none
    else if fp.all isDigit then
      some ⟨digitsToNat ip * 10 ^ fp.length + digitsToNat fp, fp.length⟩
    else none
  | _ => none

def opOfChar (c : Char) : Option OpV :=
  if c = '+' then some .add
  else if c = '-' then some .sub
  else if c = '*' then some .mul
  else if c = '/' then some .div
  else if c = '^' then some .pow
  else if c = '%' then some .pct
  else none

/-- Identifier lookup (`app.js` 130-140): constants first, then the function
vocabulary, otherwise `Unknown identifier`. -/
def idTok (id : List Char) : Option Tok :=
  if id = ['p', 'i'] then some (.const .pi)
  else if id = ['e'] then some (.const .e)
  else if id = ['a', 'n', 's'] then some (.const .ans)
  else if id = ['s', 'i', 'n'] then some (.fn .sin)
  else if id = ['c', 'o', 's'] then some (.fn .cos)
  else if id = ['t', 'a', 'n'] then some (.fn .tan)
  else if id = ['a', 's', 'i', 'n'] then some (.fn .asin)
  else if id = ['a', 'c', 'o', 's'] then some (.fn .acos)
  else if id = ['a', 't', 'a', 'n'] then some (.fn .atan)
  else if id = ['l', 'o', 'g'] then some (.fn .log)
  else if id = ['l', 'n'] then some (.fn .ln)
  else if id = ['s', 'q', 'r', 't'] then some (.fn .sqrt)
  else if id = ['i', 'n', 'v'] then some (.fn .inv)
  else none

/-- The main scanning loop of `tokenize` (`app.js` 91-153).  Fuel-structural:
`tokenize` passes the input length, which suffices since every iteration
consumes at least one character (the fuel-exhausted non-empty case is
unreachable). -/
def tokenizeF : ℕ → List Char → Except LexErr (List Tok)
  | 0, [] => .ok []
  | 0, c :: _ => .error (.unexpectedChar c)
  | _ + 1, [] => .ok []
  | fuel + 1, c :: rest =>
    if isDigit c ∨ c = '.' then
      let tail := scanNumber (if c = '.' then 1 else 0) rest
      match parseNumber (c :: tail) with
      | none => .error .invalidNumber
      | some q => (Tok.num q :: ·) <$> tokenizeF fuel (rest.drop tail.length)
    else if c = '(' then (Tok.lparen :: ·) <$> tokenizeF fuel rest
    else if c = ')' then (Tok.rparen :: ·) <$> tokenizeF fuel rest
    else if (opOfChar c).isSome then
      match opOfChar c with
      | some o => (Tok.op o :: ·) <$> tokenizeF fuel rest
      | none => .error (.unexpectedChar c)
    else if isAlpha c then
      let tail := rest.takeWhile isAlpha
      let id := (c :: tail).map Char.toLower
      match idTok id with
      | some t => (t :: ·) <$> tokenizeF fuel (rest.drop tail.length)
      | none => .error (.unknownIdentifier (String.mk id))
    else if c = '!' then (Tok.fn .fact :: ·) <$> tokenizeF fuel rest
    else .error (.unexpectedChar c)

def isOpTok : Tok → Bool
  | .op _ => true
  | _ => false

/-- The `!prev || prev.type === "op" || (prev.type === "paren" && prev.value === "(")`
test of `markUnaryMinus` (`app.js` 165). -/
def unaryContext : Option Tok → Bool
  | none => true
  | some p => isOpTok p || p = Tok.lparen

/-- `markUnaryMinus` (`app.js` 158-173): rewrite `-` to `u-` when it is the
first token, or follows an operator or `(`.  `prev` is the previously emitted
(possibly rewritten) token, as in the source's `out[out.length - 1]`. -/
def markUnaryMinusGo (prev : Option Tok) : List Tok → List Tok
  | [] => []
  | t :: rest =>
    let t' :=
      if t = .op .sub ∧ unaryContext prev then Tok.op .uminus else t
    t' :: markUnaryMinusGo (some t') rest

def markUnaryMinus (ts : List Tok) : List Tok :=
  markUnaryMinusGo none ts

def canLeft : Tok → Bool
  | .num _ | .const _ | .rparen => true
  | _ => false

def canRight : Tok → Bool
  | .num _ | .const _ | .fn _ | .lparen => true
  | _ => false

def isFnTok : Tok → Bool
  | .fn _ => true
  | _ => false

/-- `insertImplicitMultiplication` (`app.js` 175-193): insert a synthetic `*`
between adjacent tokens A,B with A ∈ {num, const, `)`} and
B ∈ {num, const, fn, `(`}; the source additionally guards against A being a
function and B `(` (already excluded by `canLeft`). -/
def insertImplicitMultiplicationGo (prev : Tok) : List Tok → List Tok
  | [] => []
  | t :: rest =>
    (if canLeft prev ∧ canRight t ∧ ¬ (isFnTok prev ∧ t = .lparen) then
      [Tok.op .mul, t]
    else [t]) ++ insertImplicitMultiplicationGo t rest

def insertImplicitMultiplication : List Tok → List Tok
  | [] => []
  | t :: rest => t :: insertImplicitMultiplicationGo t rest

/-- `tokenize` (`app.js` 84-156): normalize, strip whitespace, scan, then the
two post-passes. -/
def tokenize (raw : String) : Except LexErr (List Tok) :=
  let s := stripWs (normalizeInput raw.toList)
  (fun ts => insertImplicitMultiplication (markUnaryMinus ts)) <$>
    tokenizeF s.length s

/-! ### Shunting-yard parser (source: `OP` table and `toRPN2`, `app.js` 196-351).
The first `toRPN` (`app.js` 206-274) is a discarded draft; per the source
comment on line 276, `toRPN2` is the implementation actually called. -/

inductive Assoc where
  | L | R
deriving DecidableEq, Repr

structure OpInfo where
  prec : ℕ
  assoc : Assoc
  arity : ℕ
deriving DecidableEq, Repr

/-- The `OP` precedence/associativity/arity table (`app.js` 196-204). -/
def OP : OpV → OpInfo
  | .add => ⟨1, .L, 2⟩
  | .sub => ⟨1, .L, 2⟩
  | .mul => ⟨2, .L, 2⟩
  | .div => ⟨2, .L, 2⟩
  | .pct => ⟨2, .L, 2⟩
  | .pow => ⟨4, .R, 2⟩
  | .uminus => ⟨3, .R, 1⟩

/-- Parse failures.  The only reachable `throw` of `toRPN2` is
`"Mismatched parentheses"` (`app.js` 331, 346); the `"Unexpected token"`
default (`app.js` 341) guards against token shapes that the typed `Tok`
cannot represent. -/
inductive ParseErr where
  | mismatchedParen
deriving DecidableEq, Repr

/-- The operator-token `while` loop of `toRPN2` (`app.js` 301-317): pop stack
operators while the incoming operator `a` has lower precedence (per
associativity), and pop any stacked prefix functions unconditionally; stop at
a parenthesis or a binding-power loss.  Returns the tokens popped to output
(in pop order) and the remaining stack. -/
def popOps (a : OpInfo) : List Tok → List Tok × List Tok
  | [] => ([], [])
  | top :: rest =>
    match top with
    | .op o =>
      let b := OP o
      if (a.assoc = .L ∧ a.prec ≤ b.prec) ∨ (a.assoc = .R ∧ a.prec < b.prec) then
        (Tok.op o :: (popOps a rest).1, (popOps a rest).2)
      else ([], top :: rest)
    | .fn f => (Tok.fn f :: (popOps a rest).1, (popOps a rest).2)
    | _ => ([], top :: rest)

/-- The close-paren `while` loop of `toRPN2` (`app.js` 328-332): pop to output
until an `(` is found (which is discarded); `none` when the stack empties
first (mismatched parentheses). -/
def popUntilParen : List Tok → Option (List Tok × List Tok)
  | [] => none
  | .lparen :: rest => some ([], rest)
  | t :: rest => (popUntilParen rest).map fun pr => (t :: pr.1, pr.2)

/-- The end-of-input drain of `toRPN2` (`app.js` 344-348): pop the whole
stack to output; any parenthesis is a mismatch. -/
def drainStack : List Tok → Except ParseErr (List Tok)
  | [] => .ok []
  | .lparen :: _ => .error .mismatchedParen
  | .rparen :: _ => .error .mismatchedParen
  | t :: rest => (t :: ·) <$> drainStack rest

/-- The token loop of `toRPN2` (`app.js` 281-342), with the output emitted in
order (head = emitted first) and `stack` head = stack top.  The source tags
the re-emitted factorial token with `postfix:true`; the flag is never read by
`evalRPN`, so it is not modelled. -/
def toRPN2Loop : List Tok → List Tok → Except ParseErr (List Tok)
  | [], stack => drainStack stack
  | t :: rest, stack =>
    match t with
    | .num _ | .const _ => (t :: ·) <$> toRPN2Loop rest stack
    | .fn f =>
      if f = .fact then (Tok.fn .fact :: ·) <$> toRPN2Loop rest stack
      else toRPN2Loop rest (t :: stack)
    | .op o =>
      ((popOps (OP o) stack).1 ++ ·) <$> toRPN2Loop rest (t :: (popOps (OP o) stack).2)
    | .lparen => toRPN2Loop rest (.lparen :: stack)
    | .rparen =>
      match popUntilParen stack with
      | none => .error .mismatchedParen
      | some pr =>
        match pr.2 with
        | .fn f :: stack2 => ((pr.1 ++ [Tok.fn f]) ++ ·) <$> toRPN2Loop rest stack2
        | _ => (pr.1 ++ ·) <$> toRPN2Loop rest pr.2

/-- `toRPN2` (`app.js` 277-351). -/
def toRPN2 (ts : List Tok) : Except ParseErr (List Tok) :=
  toRPN2Loop ts []

/-! ### JavaScript number model.

An idealized IEEE-754 double: `NaN`, the two infinities, negative zero, and
finite values carried as exact reals (rounding error is idealized away).
Special-value propagation follows ECMAScript / `Math.*` semantics. -/

inductive JSNum where
  | nan
  | posInf
  | negInf
  | negZero
  | fin (x : ℝ)

namespace JSNum

/-- The real value of a finite `JSNum` (`negZero` counts as `0`); junk `0` on
the non-finite values. -/
noncomputable def finVal : JSNum → ℝ
  | fin x => x
  | _ => 0

/-- Sign bit (`true` = negative); `nan` unsigned. -/
noncomputable def isNeg : JSNum → Bool
  | nan => false
  | posInf => false
  | negInf => true
  | negZero => true
  | fin x => if x < 0 then true else false

/-- Is the value `+0` or `-0`. -/
noncomputable def isZero : JSNum → Bool
  | negZero => true
  | fin x => if x = 0 then true else false
  | _ => false

def isNaN : JSNum → Bool
  | nan => true
  | _ => false

def isPosInf : JSNum → Bool
  | posInf => true
  | _ => false

def isNegInf : JSNum → Bool
  | negInf => true
  | _ => false

def isNegZero : JSNum → Bool
  | negZero => true
  | _ => false

def isInf : JSNum → Bool
  | posInf => true
  | negInf => true
  | _ => false

/-- `Number.isFinite` (`app.js` 44, 56). -/
def isFiniteJS : JSNum → Bool
  | nan => false
  | posInf => false
  | negInf => false
  | _ => true

/-- A signed zero. -/
def zeroOfSign (neg : Bool) : JSNum :=
  if neg then negZero else fin 0

/-- A signed infinity. -/
def infOfSign (neg : Bool) : JSNum :=
  if neg then negInf else posInf

/-- IEEE negation (exact sign flip), used for the unary-minus operator
(`app.js` 372-374). -/
noncomputable def neg : JSNum → JSNum
  | nan => nan
  | posInf => negInf
  | negInf => posInf
  | negZero => fin 0
  | fin x => if x = 0 then negZero else fin (-x)

/-- IEEE addition at ideal precision (`a + b`, `app.js` 381). -/
noncomputable def add : JSNum → JSNum → JSNum
  | nan, _ => nan
  | _, nan => nan
  | posInf, negInf => nan
  | negInf, posInf => nan
  | posInf, _ => posInf
  | _, posInf => posInf
  | negInf, _ => negInf
  | _, negInf => negInf
  | negZero, negZero => negZero
  | a, b => fin (a.finVal + b.finVal)

/-- IEEE subtraction (`a - b`, `app.js` 382): addition of the negation. -/
noncomputable def sub (a b : JSNum) : JSNum :=
  add a (neg b)

/-- IEEE multiplication at ideal precision (`a * b`, `app.js` 383). -/
noncomputable def mul (a b : JSNum) : JSNum :=
  if a.isNaN ∨ b.isNaN then nan
  else
    let s := a.isNeg != b.isNeg
    if a.isInf ∨ b.isInf then
      if a.isZero ∨ b.isZero then nan else infOfSign s
    else
      let r := a.finVal * b.finVal
      if r = 0 then zeroOfSign s else fin r

/-- IEEE division at ideal precision (`a / b`, `app.js` 384). -/
noncomputable def div (a b : JSNum) : JSNum :=
  if a.isNaN ∨ b.isNaN then nan
  else
    let s := a.isNeg != b.isNeg
    if a.isInf then
      if b.isInf then nan else infOfSign s
    else if b.isInf then zeroOfSign s
    else if b.isZero then
      if a.isZero then nan else infOfSign s
    else
      let r := a.finVal / b.finVal
      if r = 0 then zeroOfSign s else fin r

/-- Is a finite value an integer (for `Math.pow` of a negative base). -/
noncomputable def isIntVal : JSNum → Bool
  | fin x => if (⌊x⌋ : ℝ) = x then true else false
  | negZero => true
  | _ => false

/-- Is a finite value an odd integer. -/
noncomputable def isOddIntVal : JSNum → Bool
  | fin x => if (⌊x⌋ : ℝ) = x ∧ ⌊x⌋ % 2 ≠ 0 then true else false
  | _ => false

/-- Is the value strictly positive (infinities included). -/
noncomputable def isPos : JSNum → Bool
  | posInf => true
  | fin x => if 0 < x then true else false
  | _ => false

/-- `Math.pow(a, b)` (`app.js` 385), following the ECMAScript
`Number::exponentiate` case order; the generic case is the real power
(`Real.rpow` for a positive base, an integer power for a negative base). -/
noncomputable def powJS (a b : JSNum) : JSNum :=
  if b.isNaN then nan
  else if b.isZero then fin 1
  else if a.isNaN then nan
  else if a.isPosInf then
    if b.isPos then posInf else fin 0
  else if a.isNegInf then
    if b.isPos then (if b.isOddIntVal then negInf else posInf)
    else (if b.isOddIntVal then negZero else fin 0)
  else if a.isZero then
    if a.isNegZero then
      if b.isPos then (if b.isOddIntVal then negZero else fin 0)
      else (if b.isOddIntVal then negInf else posInf)
    else
      if b.isPos then fin 0 else posInf
  else if b.isPosInf then
    if 1 < |a.finVal| then posInf else if |a.finVal| = 1 then nan else fin 0
  else if b.isNegInf then
    if 1 < |a.finVal| then fin 0 else if |a.finVal| = 1 then nan else posInf
  else if a.finVal < 0 then
    if b.isIntVal then fin (a.finVal ^ (⌊b.finVal⌋ : ℤ)) else nan
  else fin (a.finVal ^ b.finVal)

/-- `a * (b / 100)`: the percent operator (`app.js` 386-391). -/
noncomputable def pct (a b : JSNum) : JSNum :=
  mul a (div b (fin 100))

/-- `Math.sin`; `NaN` on non-finite input, `-0` preserved. -/
noncomputable def sinJS : JSNum → JSNum
  | negZero => negZero
  | fin x => fin (Real.sin x)
  | _ => nan

/-- `Math.cos`; `NaN` on non-finite input. -/
noncomputable def cosJS : JSNum → JSNum
  | negZero => fin 1
  | fin x => fin (Real.cos x)
  | _ => nan

/-- `Math.tan`; `NaN` on non-finite input, `-0` preserved.  (Idealized via
`Real.tan`, which is total.) -/
noncomputable def tanJS : JSNum → JSNum
  | negZero => negZero
  | fin x => fin (Real.tan x)
  | _ => nan

/-- `Math.asin`: `NaN` outside `[-1, 1]`, `-0` preserved. -/
noncomputable def asinJS : JSNum → JSNum
  | negZero => negZero
  | fin x => if |x| ≤ 1 then fin (Real.arcsin x) else nan
  | _ => nan

/-- `Math.acos`: `NaN` outside `[-1, 1]`. -/
noncomputable def acosJS : JSNum → JSNum
  | negZero => fin (Real.arccos 0)
  | fin x => if |x| ≤ 1 then fin (Real.arccos x) else nan
  | _ => nan

/-- `Math.atan`: total; `±π/2` at the infinities, `-0` preserved. -/
noncomputable def atanJS : JSNum → JSNum
  | negZero => negZero
  | posInf => fin (Real.pi / 2)
  | negInf => fin (-(Real.pi / 2))
  | fin x => fin (Real.arctan x)
  | nan => nan

/-- `Math.log10` (`app.js` 412): `NaN` below zero, `-∞` at zero. -/
noncomputable def log10JS : JSNum → JSNum
  | posInf => posInf
  | negZero => negInf
  | fin x => if x = 0 then negInf else if x < 0 then nan else fin (Real.logb 10 x)
  | _ => nan

/-- `Math.log` (`app.js` 413): `NaN` below zero, `-∞` at zero. -/
noncomputable def lnJS : JSNum → JSNum
  | posInf => posInf
  | negZero => negInf
  | fin x => if x = 0 then negInf else if x < 0 then nan else fin (Real.log x)
  | _ => nan

/-- `Math.sqrt` (`app.js` 414): `NaN` below zero, `-0` preserved. -/
noncomputable def sqrtJS : JSNum → JSNum
  | posInf => posInf
  | negZero => negZero
  | fin x => if x < 0 then nan else fin (Real.sqrt x)
  | _ => nan

end JSNum

/-- `degToRad` (`app.js` 52): `x * Math.PI / 180`, lifted to the value type. -/
noncomputable def degToRad (x : JSNum) : JSNum :=
  JSNum.div (JSNum.mul x (.fin Real.pi)) (.fin 180)

/-- `radToDeg` (`app.js` 53): `x * 180 / Math.PI`, lifted to the value type. -/
noncomputable def radToDeg (x : JSNum) : JSNum :=
  JSNum.div (JSNum.mul x (.fin 180)) (.fin Real.pi)

/-- `factorial` (`app.js` 55-64): `NaN` for non-finite, negative, or
non-integral (tolerance `1e-12`) input; `Infinity` above `170`; otherwise the
exact factorial of the rounded operand (the source's running product, at ideal
precision).  `Math.round` rounds half towards `+∞`, as does Mathlib `round`. -/
noncomputable def factorial : JSNum → JSNum
  | .nan => .nan
  | .posInf => .nan
  | .negInf => .nan
  | .negZero => .fin 1
  | .fin x =>
    if x < 0 then .nan
    else if 1e-12 < |x - (round x : ℤ)| then .nan
    else if 170 < round x then .posInf
    else .fin (Nat.factorial (round x).toNat)

/-! ### Postfix evaluator (source: `evalRPN`, `app.js` 354-426) -/

/-- Angle mode (`state.mode`, `app.js` 25). -/
inductive Mode where
  | DEG | RAD
deriving DecidableEq, Repr

/-- Evaluator failures (`throw` sites of `evalRPN`).  `badExpression` is the
source's `"Bad expression"` (operator-stack underflow at `app.js` 370 and
wrong final stack depth at `app.js` 424 — the spec's `StackUnderflow` and
`MalformedExpression`); `badFunction` is `"Bad function"` (`app.js` 395).
`"Unknown op"` / `"Unknown function"` (`app.js` 369, 417) are unreachable for
the closed `OpV`/`FnV` vocabularies; `unknownTokenType` is `app.js` 422,
reachable only for parenthesis tokens. -/
inductive EvalErr where
  | badExpression
  | badFunction
  | unknownTokenType
deriving DecidableEq, Repr

/-- The real value of a numeric literal token. -/
noncomputable def NumLit.val (v : NumLit) : ℝ :=
  (v.mant : ℝ) / 10 ^ v.scale

/-- Constant lookup (`app.js` 361-365): `π`, Euler's number, or the session's
`state.ans`. -/
noncomputable def constVal (c : CV) (ansv : JSNum) : JSNum :=
  match c with
  | .pi => .fin Real.pi
  | .e => .fin (Real.exp 1)
  | .ans => ansv

/-- Binary operator semantics (`app.js` 378-391). -/
noncomputable def applyBin (o : OpV) (a b : JSNum) : JSNum :=
  match o with
  | .add => a.add b
  | .sub => a.sub b
  | .mul => a.mul b
  | .div => a.div b
  | .pow => a.powJS b
  | .pct => a.pct b
  | .uminus => .nan   -- unreachable: handled before popping two operands

/-- Function-token semantics (`app.js` 394-420), with the DEG/RAD input
conversion `trigIn` for `sin/cos/tan` and output conversion `trigOut` for
`asin/acos/atan`. -/
noncomputable def applyFn (mode : Mode) (f : FnV) (a : JSNum) : JSNum :=
  let trigIn := fun x => if mode = .DEG then degToRad x else x
  let trigOut := fun x => if mode = .DEG then radToDeg x else x
  match f with
  | .sin => JSNum.sinJS (trigIn a)
  | .cos => JSNum.cosJS (trigIn a)
  | .tan => JSNum.tanJS (trigIn a)
  | .asin => trigOut (JSNum.asinJS a)
  | .acos => trigOut (JSNum.acosJS a)
  | .atan => trigOut (JSNum.atanJS a)
  | .log => JSNum.log10JS a
  | .ln => JSNum.lnJS a
  | .sqrt => JSNum.sqrtJS a
  | .inv => JSNum.div (.fin 1) a
  | .fact => factorial a

/-- The token loop of `evalRPN` (`app.js` 356-423) with the value stack `st`
(head = top), followed by the final depth-1 check (`app.js` 424-425). -/
noncomputable def evalRPNLoop (mode : Mode) (ansv : JSNum) :
    List Tok → List JSNum → Except EvalErr JSNum
  | [], st =>
    match st with
    | [v] => .ok v
    | _ => .error .badExpression
  | t :: rest, st =>
    match t with
    | .num q => evalRPNLoop mode ansv rest (.fin q.val :: st)
    | .const c => evalRPNLoop mode ansv rest (constVal c ansv :: st)
    | .op .uminus =>
      match st with
      | a :: st' => evalRPNLoop mode ansv rest (a.neg :: st')
      | [] => .error .badExpression
    | .op o =>
      match st with
      | b :: a :: st' => evalRPNLoop mode ansv rest (applyBin o a b :: st')
      | _ => .error .badExpression
    | .fn f =>
      match st with
      | a :: st' => evalRPNLoop mode ansv rest (applyFn mode f a :: st')
      | [] => .error .badFunction
    | .lparen => .error .unknownTokenType
    | .rparen => .error .unknownTokenType

/-- `evalRPN` (`app.js` 354-426). -/
noncomputable def evalRPN (mode : Mode) (ansv : JSNum) (rpn : List Tok) :
    Except EvalErr JSNum :=
  evalRPNLoop mode ansv rpn []

/-- `EngineError` tags each failure with its pipeline stage (spec section 4.4). -/
inductive EngineError where
  | lex (e : LexErr)
  | parse (e : ParseErr)
  | eval (e : EvalErr)
deriving DecidableEq, Repr

/-- `evaluateExpression` (`app.js` 428-432): lexer, parser, evaluator,
short-circuiting on the first failure. -/
noncomputable def evaluateExpression (mode : Mode) (ansv : JSNum) (raw : String) :
    Except EngineError JSNum :=
  match tokenize raw with
  | .error e => .error (.lex e)
  | .ok ts =>
    match toRPN2 ts with
    | .error e => .error (.parse e)
    | .ok rpn =>
      match evalRPN mode ansv rpn with
      | .error e => .error (.eval e)
      | .ok v => .ok v

/-! ### Display formatting (source: `formatNumber`, `app.js` 43-50).

`n.toPrecision(12)` is modelled as exact rounding to 12 significant decimal
digits (`sig12`), and `Number(...).toString()` as a plain decimal rendering
that drops insignificant trailing zeros (`renderNumber`; the exponential
notation JavaScript uses outside `[1e-6, 1e21)` is not modelled — all claim
values are well inside that range). -/

/-- Round a real to 12 significant decimal digits (the value of
`n.toPrecision(12)`), as a scaled integer: the rounded value is
`(sig12 x).1 * 10 ^ (sig12 x).2`. -/
noncomputable def sig12 (x : ℝ) : ℤ × ℤ :=
  if x = 0 then (0, 0)
  else
    let k : ℤ := Int.log 10 |x| - 11
    (round (x / (10 : ℝ) ^ k), k)

def digitChar : ℕ → Char
  | 0 => '0' | 1 => '1' | 2 => '2' | 3 => '3' | 4 => '4'
  | 5 => '5' | 6 => '6' | 7 => '7' | 8 => '8' | 9 => '9'
  | _ => '*'

/-- Decimal digits of a natural number (most significant first, `[]` for 0);
fuel-bounded (400 digits cover every value the formatter meets). -/
def natDigitsAux : ℕ → ℕ → List Char
  | _, 0 => []
  | n, fuel + 1 => if n = 0 then [] else natDigitsAux (n / 10) fuel ++ [digitChar (n % 10)]

def natDigits (n : ℕ) : List Char :=
  if n = 0 then ['0'] else natDigitsAux n 400

def padLeft (d : ℕ) (cs : List Char) : List Char :=
  List.replicate (d - cs.length) '0' ++ cs

def dropTrailingZeros (cs : List Char) : List Char :=
  (cs.reverse.dropWhile (· = '0')).reverse

/-- Plain decimal rendering of the scaled integer `m * 10 ^ k` (JavaScript
`Number.toString` for values in the positional-notation range), dropping the
insignificant trailing zeros of the fractional part. -/
def renderDec (m k : ℤ) : String :=
  let sign := if m < 0 then ['-'] else []
  let n := m.natAbs
  if 0 ≤ k then String.mk (sign ++ natDigits (n * 10 ^ k.toNat))
  else
    let d := (-k).toNat
    let fr := dropTrailingZeros (padLeft d (natDigitsAux (n % 10 ^ d) 400))
    String.mk (sign ++ natDigits (n / 10 ^ d) ++ (if fr = [] then [] else '.' :: fr))

/-- `formatNumber` (`app.js` 43-50): `"Error"` for non-finite values,
negative zero normalized to `0` (by `finVal`), then 12-significant-digit
rounding and re-stringification. -/
noncomputable def formatNumber (n : JSNum) : String :=
  if ¬ n.isFiniteJS then "Error"
  else renderDec (sig12 n.finVal).1 (sig12 n.finVal).2

/-! ### The stack-depth invariant (spec sections 3 and 8, claim C1).

`rpnDepth` is the specification's depth automaton: scanning the postfix
sequence left to right, values push one entry, operators and functions
require their arity on the stack (else the depth would go negative) and leave
one result; a well-formed postfix sequence ends at depth exactly 1. -/

def rpnDepth : List Tok → ℕ → Option ℕ
  | [], d => some d
  | .num _ :: rest, d => rpnDepth rest (d + 1)
  | .const _ :: rest, d => rpnDepth rest (d + 1)
  | .op o :: rest, d =>
    if (OP o).arity ≤ d then rpnDepth rest (d - (OP o).arity + 1) else none
  | .fn _ :: rest, d => if 1 ≤ d then rpnDepth rest d else none
  | .lparen :: _, _ => none
  | .rparen :: _, _ => none

def isParen : Tok → Bool
  | .lparen => true
  | .rparen => true
  | _ => false

def noParens (ts : List Tok) : Bool :=
  ts.all fun t => ! isParen t

/-- Tokens that can legitimately sit on the shunting-yard stack. -/
def stackTok : Tok → Bool
  | .op _ => true
  | .fn _ => true
  | .lparen => true
  | _ => false

def wfStack (st : List Tok) : Bool :=
  st.all stackTok

/-! ### Parenthesis-balance characterization of parse failure (claim C9).

`balCheck ts k` runs the balance automaton: `k` open parentheses pending; a
`)` with `k = 0` is a prefix violation, and a nonzero `k` at the end is an
unclosed `(`.  `toRPN2` fails (necessarily with `"Mismatched parentheses"`,
the only reachable throw) exactly when the automaton rejects. -/

def balCheck : List Tok → ℕ → Bool
  | [], k => k = 0
  | .lparen :: rest, k => balCheck rest (k + 1)
  | .rparen :: rest, k => if k = 0 then false else balCheck rest (k - 1)
  | _ :: rest, k => balCheck rest k

def lparenCount (st : List Tok) : ℕ :=
  st.count .lparen

/-! ### Implicit multiplication: the spec-side characterization (claim C7). -/

/-- The insertion rule exactly as the spec words it (section 4.1, step 7):
walking adjacent pairs A,B of the token list, insert `*` when
A ∈ {num, const, `)`} and B ∈ {num, const, fn, `(`}, except between a
function and its `(`. -/
def specInsertMul : List Tok → List Tok
  | [] => []
  | [t] => [t]
  | a :: b :: rest =>
    if canLeft a ∧ canRight b ∧ ¬ (isFnTok a ∧ b = .lparen) then
      a :: Tok.op .mul :: specInsertMul (b :: rest)
    else
      a :: specInsertMul (b :: rest)

example : tokenize "50%4" = .ok [.num ⟨50, 0⟩, .op .pct, .num ⟨4, 0⟩] := by decide

example : tokenize "-3^2" = .ok [.op .uminus, .num ⟨3, 0⟩, .op .pow, .num ⟨2, 0⟩] := by decide

example : tokenize "2pi" = .ok [.num ⟨2, 0⟩, .op .mul, .const .pi] := by decide

example : tokenize "sin(90)" = .ok [.fn .sin, .lparen, .num ⟨90, 0⟩, .rparen] := by decide

example : tokenize "3.5!" = .ok [.num ⟨35, 1⟩, .op .mul, .fn .fact] := by decide

example : tokenize "5!" = .ok [.num ⟨5, 0⟩, .op .mul, .fn .fact] := by decide

example : tokenize "2^-3" = .ok [.num ⟨2, 0⟩, .op .pow, .op .uminus, .num ⟨3, 0⟩] := by decide

example : toRPN2 [.op .uminus, .num ⟨3, 0⟩, .op .pow, .num ⟨2, 0⟩] =
    .ok [.num ⟨3, 0⟩, .num ⟨2, 0⟩, .op .pow, .op .uminus] := by decide

example : toRPN2 [.num ⟨2, 0⟩, .op .pow, .op .uminus, .num ⟨3, 0⟩] =
    .ok [.num ⟨2, 0⟩, .op .pow, .num ⟨3, 0⟩, .op .uminus] := by decide

example : toRPN2 [.fn .sin, .lparen, .num ⟨90, 0⟩, .rparen] =
    .ok [.num ⟨90, 0⟩, .fn .sin] := by decide

example : toRPN2 [.lparen, .num ⟨2, 0⟩, .op .add, .num ⟨3, 0⟩] =
    .error .mismatchedParen := by decide

example : toRPN2 [.num ⟨10, 0⟩, .op .pct, .num ⟨5, 0⟩, .op .pct, .num ⟨2, 0⟩] =
    .ok [.num ⟨10, 0⟩, .num ⟨5, 0⟩, .op .pct, .num ⟨2, 0⟩, .op .pct] := by decide

example : renderDec 120 0 = "120" := by decide

example : renderDec 25 (-2) = "0.25" := by decide

example : renderDec (-35) (-1) = "-3.5" := by decide

example : renderDec 628318530718 (-11) = "6.28318530718" := by decide

example : renderDec 500 (-2) = "5" := by decide

example : renderDec 0 0 = "0" := by decide

/-! ### Helper lemmas: `JSNum` operations on finite values -/

namespace JSNum

@[simp] theorem isNaN_fin (x : ℝ) : (fin x).isNaN = false := rfl

@[simp] theorem isInf_fin (x : ℝ) : (fin x).isInf = false := rfl

@[simp] theorem isPosInf_fin (x : ℝ) : (fin x).isPosInf = false := rfl

@[simp] theorem isNegInf_fin (x : ℝ) : (fin x).isNegInf = false := rfl

@[simp] theorem isNegZero_fin (x : ℝ) : (fin x).isNegZero = false := rfl

@[simp] theorem isFiniteJS_fin (x : ℝ) : (fin x).isFiniteJS = true := rfl

@[simp] theorem finVal_fin (x : ℝ) : (fin x).finVal = x := rfl

@[simp] theorem isZero_fin (x : ℝ) : (fin x).isZero = if x = 0 then true else false := rfl

@[simp] theorem isNeg_fin (x : ℝ) : (fin x).isNeg = if x < 0 then true else false := rfl

@[simp] theorem isNaN_negZero : negZero.isNaN = false := rfl

@[simp] theorem isInf_negZero : negZero.isInf = false := rfl

@[simp] theorem isZero_negZero : negZero.isZero = true := rfl

@[simp] theorem isNeg_negZero : negZero.isNeg = true := rfl

@[simp] theorem isFiniteJS_negZero : negZero.isFiniteJS = true := rfl

@[simp] theorem finVal_negZero : negZero.finVal = 0 := rfl

@[simp] theorem zeroOfSign_false : zeroOfSign false = fin 0 := rfl

@[simp] theorem zeroOfSign_true : zeroOfSign true = negZero := rfl

theorem add_fin (x y : ℝ) : (fin x).add (fin y) = fin (x + y) := rfl

theorem neg_fin {x : ℝ} (h : x ≠ 0) : (fin x).neg = fin (-x) := by
  simp [neg, h]

theorem mul_fin {x y : ℝ} (h : x * y ≠ 0) : (fin x).mul (fin y) = fin (x * y) := by
  simp [mul, h]

theorem div_fin {x y : ℝ} (hx : x ≠ 0) (hy : y ≠ 0) :
    (fin x).div (fin y) = fin (x / y) := by
  simp [div, hy, div_ne_zero hx hy]

theorem powJS_fin_pos {x : ℝ} (y : ℝ) (hx : 0 < x) :
    (fin x).powJS (fin y) = fin (x ^ y) := by
  by_cases hy : y = 0
  · subst hy
    simp [powJS, isZero, Real.rpow_zero]
  · simp [powJS, isZero, hy, hx.ne.symm, not_lt.mpr hx.le]

theorem pct_fin {a b : ℝ} (ha : a ≠ 0) (hb : b ≠ 0) :
    (fin a).pct (fin b) = fin (a * (b / 100)) := by
  rw [pct, div_fin hb (by norm_num), mul_fin]
  exact mul_ne_zero ha (div_ne_zero hb (by norm_num))

/-- The percent operator always yields a finite value on finite operands, of
real value `a * (b / 100)` (signed zeros collapse to `0 = a * (b / 100)`). -/
theorem pct_fin_val (a b : ℝ) :
    ((fin a).pct (fin b)).isFiniteJS = true ∧
      ((fin a).pct (fin b)).finVal = a * (b / 100) := by
  have hdiv : ∀ y : ℝ, ((fin y).div (fin 100)).isFiniteJS = true ∧
      ((fin y).div (fin 100)).finVal = y / 100 := by
    intro y
    by_cases hy : y = 0
    · subst hy
      simp [div, lt_irrefl, zeroOfSign]
      try norm_num
    · rw [div_fin hy (by norm_num)]
      simp
  have hmul : ∀ x z : ℝ, ((fin x).mul (fin z)).isFiniteJS = true ∧
      ((fin x).mul (fin z)).finVal = x * z := by
    intro x z
    by_cases hxz : x * z = 0
    · by_cases hx : x < 0 <;> by_cases hz : z < 0 <;>
        (simp [mul, hxz, hx, hz, zeroOfSign]; try exact hxz.symm)
    · rw [mul_fin hxz]
      simp
  rw [pct]
  by_cases hb : b = 0
  · subst hb
    have h0 : (fin (0:ℝ)).div (fin 100) = fin 0 := by
      simp [div, lt_irrefl, zeroOfSign]
      try norm_num
    rw [h0]
    simpa using hmul a 0
  · rw [div_fin hb (by norm_num)]
    exact hmul a (b / 100)

end JSNum

theorem except_map_ok {ε α β : Type} {f : α → β} {e : Except ε α} {b : β} :
    (f <$> e) = .ok b ↔ ∃ a, e = .ok a ∧ b = f a := by
  cases e <;> simp [Except.map, eq_comm]

/-- The evaluator succeeds exactly when the depth automaton accepts: its
`"Bad expression"` / `"Bad function"` / `"Unknown token type"` throws fire
precisely on depth underflow, a wrong final depth, or a parenthesis token. -/
theorem evalRPNLoop_ok_iff (mode : Mode) (ansv : JSNum) :
    ∀ (ts : List Tok) (st : List JSNum),
      (∃ v, evalRPNLoop mode ansv ts st = .ok v) ↔ rpnDepth ts st.length = some 1 := by
  intro ts
  induction ts with
  | nil =>
    intro st
    match st with
    | [] => simp [evalRPNLoop, rpnDepth]
    | [v] => simp [evalRPNLoop, rpnDepth]
    | a :: b :: st' => simp [evalRPNLoop, rpnDepth]
  | cons t rest ih =>
    intro st
    match t with
    | .num q => simpa [evalRPNLoop, rpnDepth] using ih (.fin q.val :: st)
    | .const c => simpa [evalRPNLoop, rpnDepth] using ih (constVal c ansv :: st)
    | .op .uminus =>
      match st with
      | [] => simp [evalRPNLoop, rpnDepth, OP]
      | a :: st' => simpa [evalRPNLoop, rpnDepth, OP] using ih (a.neg :: st')
    | .op .add =>
      match st with
      | [] => simp [evalRPNLoop, rpnDepth, OP]
      | [b] => simp [evalRPNLoop, rpnDepth, OP]
      | b :: a :: st' =>
        simpa [evalRPNLoop, rpnDepth, OP] using ih (applyBin .add a b :: st')
    | .op .sub =>
      match st with
      | [] => simp [evalRPNLoop, rpnDepth, OP]
      | [b] => simp [evalRPNLoop, rpnDepth, OP]
      | b :: a :: st' =>
        simpa [evalRPNLoop, rpnDepth, OP] using ih (applyBin .sub a b :: st')
    | .op .mul =>
      match st with
      | [] => simp [evalRPNLoop, rpnDepth, OP]
      | [b] => simp [evalRPNLoop, rpnDepth, OP]
      | b :: a :: st' =>
        simpa [evalRPNLoop, rpnDepth, OP] using ih (applyBin .mul a b :: st')
    | .op .div =>
      match st with
      | [] => simp [evalRPNLoop, rpnDepth, OP]
      | [b] => simp [evalRPNLoop, rpnDepth, OP]
      | b :: a :: st' =>
        simpa [evalRPNLoop, rpnDepth, OP] using ih (applyBin .div a b :: st')
    | .op .pct =>
      match st with
      | [] => simp [evalRPNLoop, rpnDepth, OP]
      | [b] => simp [evalRPNLoop, rpnDepth, OP]
      | b :: a :: st' =>
        simpa [evalRPNLoop, rpnDepth, OP] using ih (applyBin .pct a b :: st')
    | .op .pow =>
      match st with
      | [] => simp [evalRPNLoop, rpnDepth, OP]
      | [b] => simp [evalRPNLoop, rpnDepth, OP]
      | b :: a :: st' =>
        simpa [evalRPNLoop, rpnDepth, OP] using ih (applyBin .pow a b :: st')
    | .fn f =>
      match st with
      | [] => simp [evalRPNLoop, rpnDepth]
      | a :: st' => simpa [evalRPNLoop, rpnDepth] using ih (applyFn mode f a :: st')
    | .lparen => simp [evalRPNLoop, rpnDepth]
    | .rparen => simp [evalRPNLoop, rpnDepth]

theorem popOps_noParens (a : OpInfo) :
    ∀ st : List Tok, wfStack st = true →
      noParens (popOps a st).1 = true ∧ wfStack (popOps a st).2 = true := by
  intro st
  induction st with
  | nil => simp [popOps, noParens, wfStack]
  | cons top rest ih =>
    intro hwf
    simp only [wfStack, List.all_cons, Bool.and_eq_true] at hwf
    have ihr := fun h => ih h
    cases top with
    | op o =>
      simp only [popOps]
      split
      · have h := ih hwf.2
        refine ⟨?_, h.2⟩
        simpa [noParens, isParen] using h.1
      · exact ⟨by simp [noParens], by simpa [wfStack, stackTok] using hwf.2⟩
    | fn f =>
      have h := ih hwf.2
      simp only [popOps]
      refine ⟨?_, h.2⟩
      simpa [noParens, isParen] using h.1
    | lparen =>
      exact ⟨by simp [popOps, noParens], by simpa [popOps, wfStack, stackTok] using hwf.2⟩
    | num q => simp [stackTok] at hwf
    | const c => simp [stackTok] at hwf
    | rparen => simp [stackTok] at hwf

theorem popUntilParen_noParens :
    ∀ (st p st' : List Tok), wfStack st = true →
      popUntilParen st = some (p, st') →
      noParens p = true ∧ wfStack st' = true := by
  intro st
  induction st with
  | nil => intro p st' _ h; simp [popUntilParen] at h
  | cons top rest ih =>
    intro p st' hwf h
    simp only [wfStack, List.all_cons, Bool.and_eq_true] at hwf
    cases top with
    | lparen =>
      rw [popUntilParen] at h
      simp only [Option.some_inj, Prod.mk.injEq] at h
      obtain ⟨rfl, rfl⟩ := h
      exact ⟨by simp [noParens], hwf.2⟩
    | op o =>
      simp only [popUntilParen] at h
      cases hrec : popUntilParen rest with
      | none => rw [hrec] at h; simp at h
      | some pr =>
        rw [hrec] at h
        simp only [Option.map_some', Option.some_inj, Prod.mk.injEq] at h
        obtain ⟨rfl, rfl⟩ := h
        have hr := ih pr.1 pr.2 hwf.2 (by rw [hrec])
        refine ⟨?_, hr.2⟩
        simpa [noParens, isParen] using hr.1
    | fn f =>
      simp only [popUntilParen] at h
      cases hrec : popUntilParen rest with
      | none => rw [hrec] at h; simp at h
      | some pr =>
        rw [hrec] at h
        simp only [Option.map_some', Option.some_inj, Prod.mk.injEq] at h
        obtain ⟨rfl, rfl⟩ := h
        have hr := ih pr.1 pr.2 hwf.2 (by rw [hrec])
        refine ⟨?_, hr.2⟩
        simpa [noParens, isParen] using hr.1
    | num q => simp [stackTok] at hwf
    | const c => simp [stackTok] at hwf
    | rparen => simp [stackTok] at hwf

theorem drainStack_noParens :
    ∀ (st out : List Tok), wfStack st = true → drainStack st = .ok out →
      noParens out = true := by
  intro st
  induction st with
  | nil => intro out _ h; simp only [drainStack, Except.ok.injEq] at h; simp [← h, noParens]
  | cons top rest ih =>
    intro out hwf h
    simp only [wfStack, List.all_cons, Bool.and_eq_true] at hwf
    cases top with
    | lparen => simp [drainStack] at h
    | rparen => simp [drainStack] at h
    | op o =>
      simp only [drainStack] at h
      rw [except_map_ok] at h
      obtain ⟨out', h1, rfl⟩ := h
      simpa [noParens, isParen] using ih out' hwf.2 h1
    | fn f =>
      simp only [drainStack] at h
      rw [except_map_ok] at h
      obtain ⟨out', h1, rfl⟩ := h
      simpa [noParens, isParen] using ih out' hwf.2 h1
    | num q => simp [stackTok] at hwf
    | const c => simp [stackTok] at hwf

theorem noParens_append {xs ys : List Tok} :
    noParens (xs ++ ys) = true ↔ noParens xs = true ∧ noParens ys = true := by
  simp [noParens]

/-- The parser never emits parenthesis tokens (spec section 4.2, result
invariant). -/
theorem toRPN2Loop_noParens :
    ∀ (ts st out : List Tok), wfStack st = true →
      toRPN2Loop ts st = .ok out → noParens out = true := by
  intro ts
  induction ts with
  | nil => exact fun st out hwf h => drainStack_noParens st out hwf h
  | cons t rest ih =>
    intro st out hwf h
    cases t with
    | num q =>
      simp only [toRPN2Loop] at h
      rw [except_map_ok] at h
      obtain ⟨out', h1, rfl⟩ := h
      simpa [noParens, isParen] using ih st out' hwf h1
    | const c =>
      simp only [toRPN2Loop] at h
      rw [except_map_ok] at h
      obtain ⟨out', h1, rfl⟩ := h
      simpa [noParens, isParen] using ih st out' hwf h1
    | fn f =>
      by_cases hf : f = .fact
      · subst hf
        simp only [toRPN2Loop, if_pos] at h
        rw [except_map_ok] at h
        obtain ⟨out', h1, rfl⟩ := h
        simpa [noParens, isParen] using ih st out' hwf h1
      · simp only [toRPN2Loop, if_neg hf] at h
        exact ih (.fn f :: st) out (by simpa [wfStack, stackTok] using hwf) h
    | op o =>
      simp only [toRPN2Loop] at h
      rw [except_map_ok] at h
      obtain ⟨out', h1, rfl⟩ := h
      have hpop := popOps_noParens (OP o) st hwf
      have hrec := ih (.op o :: (popOps (OP o) st).2) out'
        (by simpa [wfStack, stackTok] using hpop.2) h1
      exact noParens_append.mpr ⟨hpop.1, hrec⟩
    | lparen =>
      simp only [toRPN2Loop] at h
      exact ih (.lparen :: st) out (by simpa [wfStack, stackTok] using hwf) h
    | rparen =>
      simp only [toRPN2Loop] at h
      cases hpu : popUntilParen st with
      | none => rw [hpu] at h; simp at h
      | some pr =>
        rw [hpu] at h
        have hp := popUntilParen_noParens st pr.1 pr.2 hwf (by rw [hpu])
        obtain ⟨p0, st0⟩ := pr
        dsimp only at h hp
        cases st0 with
        | nil =>
          rw [except_map_ok] at h
          obtain ⟨out', h1, rfl⟩ := h
          have hrec := ih ([]) out' (by simp [wfStack]) h1
          exact noParens_append.mpr ⟨hp.1, hrec⟩
        | cons s0 st2 =>
          have hwf2 : wfStack (s0 :: st2) = true := hp.2
          cases s0 with
          | fn f =>
            rw [except_map_ok] at h
            obtain ⟨out', h1, rfl⟩ := h
            have hrec := ih st2 out'
              (by simpa [wfStack, stackTok] using hwf2) h1
            refine noParens_append.mpr ⟨?_, hrec⟩
            exact noParens_append.mpr ⟨hp.1, by simp [noParens, isParen]⟩
          | op o =>
            rw [except_map_ok] at h
            obtain ⟨out', h1, rfl⟩ := h
            have hrec := ih (.op o :: st2) out' hwf2 h1
            exact noParens_append.mpr ⟨hp.1, hrec⟩
          | lparen =>
            rw [except_map_ok] at h
            obtain ⟨out', h1, rfl⟩ := h
            have hrec := ih (.lparen :: st2) out' hwf2 h1
            exact noParens_append.mpr ⟨hp.1, hrec⟩
          | num q => simp [wfStack, stackTok] at hwf2
          | const c => simp [wfStack, stackTok] at hwf2
          | rparen => simp [wfStack, stackTok] at hwf2

theorem toRPN2_noParens (ts rpn : List Tok) (h : toRPN2 ts = .ok rpn) :
    noParens rpn = true :=
  toRPN2Loop_noParens ts [] rpn (by simp [wfStack]) h

@[simp] theorem lparenCount_nil : lparenCount [] = 0 := rfl

@[simp] theorem lparenCount_cons_lparen (ts : List Tok) :
    lparenCount (.lparen :: ts) = lparenCount ts + 1 := by
  simp [lparenCount, List.count_cons]

@[simp] theorem lparenCount_cons_of_ne (t : Tok) (ts : List Tok) (h : t ≠ .lparen) :
    lparenCount (t :: ts) = lparenCount ts := by
  simp [lparenCount, List.count_cons, h]

theorem except_map_ok_exists {ε α β : Type} {f : α → β} {e : Except ε α} :
    (∃ b, (f <$> e) = .ok b) ↔ ∃ a, e = .ok a := by
  cases e <;> simp [Except.map]

theorem popOps_lparenCount (a : OpInfo) :
    ∀ st : List Tok, lparenCount (popOps a st).2 = lparenCount st := by
  intro st
  induction st with
  | nil => simp [popOps]
  | cons top rest ih =>
    cases top with
    | op o =>
      simp only [popOps]
      split
      · simpa using ih
      · simp
    | fn f => simpa [popOps] using ih
    | lparen => simp [popOps]
    | rparen => simp [popOps]
    | num q => simp [popOps]
    | const c => simp [popOps]

theorem popUntilParen_none_iff :
    ∀ st : List Tok, popUntilParen st = none ↔ lparenCount st = 0 := by
  intro st
  induction st with
  | nil => simp [popUntilParen, lparenCount]
  | cons top rest ih =>
    cases top with
    | lparen => simp [popUntilParen]
    | rparen => simpa [popUntilParen] using ih
    | op o => simpa [popUntilParen] using ih
    | fn f => simpa [popUntilParen] using ih
    | num q => simpa [popUntilParen] using ih
    | const c => simpa [popUntilParen] using ih

theorem popUntilParen_some_count :
    ∀ (st : List Tok) (pr : List Tok × List Tok), popUntilParen st = some pr →
      lparenCount st = lparenCount pr.2 + 1 := by
  intro st
  induction st with
  | nil => intro pr h; simp [popUntilParen] at h
  | cons top rest ih =>
    intro pr h
    cases top with
    | lparen =>
      rw [popUntilParen] at h
      simp only [Option.some_inj] at h
      subst h
      simp
    | rparen =>
      simp only [popUntilParen] at h
      cases hrec : popUntilParen rest with
      | none => rw [hrec] at h; simp at h
      | some pr0 =>
        rw [hrec] at h
        simp only [Option.map_some', Option.some_inj] at h
        subst h
        simpa using ih pr0 hrec
    | op o =>
      simp only [popUntilParen] at h
      cases hrec : popUntilParen rest with
      | none => rw [hrec] at h; simp at h
      | some pr0 =>
        rw [hrec] at h
        simp only [Option.map_some', Option.some_inj] at h
        subst h
        simpa using ih pr0 hrec
    | fn f =>
      simp only [popUntilParen] at h
      cases hrec : popUntilParen rest with
      | none => rw [hrec] at h; simp at h
      | some pr0 =>
        rw [hrec] at h
        simp only [Option.map_some', Option.some_inj] at h
        subst h
        simpa using ih pr0 hrec
    | num q =>
      simp only [popUntilParen] at h
      cases hrec : popUntilParen rest with
      | none => rw [hrec] at h; simp at h
      | some pr0 =>
        rw [hrec] at h
        simp only [Option.map_some', Option.some_inj] at h
        subst h
        simpa using ih pr0 hrec
    | const c =>
      simp only [popUntilParen] at h
      cases hrec : popUntilParen rest with
      | none => rw [hrec] at h; simp at h
      | some pr0 =>
        rw [hrec] at h
        simp only [Option.map_some', Option.some_inj] at h
        subst h
        simpa using ih pr0 hrec

theorem drainStack_ok_iff :
    ∀ st : List Tok, wfStack st = true →
      ((∃ out, drainStack st = .ok out) ↔ lparenCount st = 0) := by
  intro st
  induction st with
  | nil => simp [drainStack]
  | cons top rest ih =>
    intro hwf
    simp only [wfStack, List.all_cons, Bool.and_eq_true] at hwf
    cases top with
    | lparen => simp [drainStack]
    | rparen => simp [stackTok] at hwf
    | op o =>
      simp only [drainStack]
      rw [except_map_ok_exists]
      simpa using ih hwf.2
    | fn f =>
      simp only [drainStack]
      rw [except_map_ok_exists]
      simpa using ih hwf.2
    | num q => simp [stackTok] at hwf
    | const c => simp [stackTok] at hwf

/-- `toRPN2Loop` succeeds exactly when the balance automaton accepts, starting
from the number of open parentheses already on the stack. -/
theorem toRPN2Loop_ok_iff :
    ∀ (ts st : List Tok), wfStack st = true →
      ((∃ out, toRPN2Loop ts st = .ok out) ↔ balCheck ts (lparenCount st) = true) := by
  intro ts
  induction ts with
  | nil => exact fun st hwf => by simpa [toRPN2Loop, balCheck] using drainStack_ok_iff st hwf
  | cons t rest ih =>
    intro st hwf
    cases t with
    | num q =>
      rw [toRPN2Loop]
      rw [except_map_ok_exists]
      simpa [balCheck] using ih st hwf
    | const c =>
      rw [toRPN2Loop]
      rw [except_map_ok_exists]
      simpa [balCheck] using ih st hwf
    | fn f =>
      by_cases hf : f = .fact
      · subst hf
        rw [toRPN2Loop]
        rw [if_pos rfl, except_map_ok_exists]
        simpa [balCheck] using ih st hwf
      · rw [toRPN2Loop]
        rw [if_neg hf]
        have := ih (.fn f :: st) (by simpa [wfStack, stackTok] using hwf)
        simpa [balCheck] using this
    | op o =>
      rw [toRPN2Loop]
      rw [except_map_ok_exists]
      have hwf2 : wfStack (Tok.op o :: (popOps (OP o) st).2) = true := by
        simpa [wfStack, stackTok] using (popOps_noParens (OP o) st hwf).2
      have := ih (.op o :: (popOps (OP o) st).2) hwf2
      simpa [balCheck, popOps_lparenCount] using this
    | lparen =>
      rw [toRPN2Loop]
      have := ih (.lparen :: st) (by simpa [wfStack, stackTok] using hwf)
      simpa [balCheck] using this
    | rparen =>
      rw [toRPN2Loop]
      cases hpu : popUntilParen st with
      | none =>
        have h0 : lparenCount st = 0 := (popUntilParen_none_iff st).mp hpu
        simp [balCheck, h0]
      | some pr =>
        have hcnt : lparenCount st = lparenCount pr.2 + 1 :=
          popUntilParen_some_count st pr hpu
        have hp := popUntilParen_noParens st pr.1 pr.2 hwf (by rw [hpu])
        obtain ⟨p0, st0⟩ := pr
        dsimp only at hcnt hp ⊢
        cases st0 with
        | nil =>
          rw [except_map_ok_exists]
          have := ih ([]) (by simp [wfStack])
          simp only [hcnt, balCheck]
          simpa using this
        | cons s0 st2 =>
          have hwf2 : wfStack (s0 :: st2) = true := hp.2
          cases s0 with
          | fn f =>
            rw [except_map_ok_exists]
            have := ih st2 (by simpa [wfStack, stackTok] using hwf2)
            simp only [hcnt, balCheck]
            simpa using this
          | op o =>
            rw [except_map_ok_exists]
            have := ih (.op o :: st2) hwf2
            simp only [hcnt, balCheck]
            simpa using this
          | lparen =>
            rw [except_map_ok_exists]
            have := ih (.lparen :: st2) hwf2
            simp only [hcnt, balCheck]
            simpa using this
          | num q => simp [wfStack, stackTok] at hwf2
          | const c => simp [wfStack, stackTok] at hwf2
          | rparen => simp [wfStack, stackTok] at hwf2

/-- `toRPN2` fails — necessarily with the mismatched-parentheses error, the
only constructor of `ParseErr` — if and only if the token sequence is
parenthesis-unbalanced. -/
theorem toRPN2_error_iff (ts : List Tok) :
    toRPN2 ts = .error .mismatchedParen ↔ balCheck ts 0 = false := by
  have h := toRPN2Loop_ok_iff ts [] (by simp [wfStack])
  rw [show lparenCount [] = 0 from rfl] at h
  constructor
  · intro herr
    cases hb : balCheck ts 0
    · rfl
    · obtain ⟨out, hout⟩ := h.mpr hb
      rw [toRPN2] at herr
      rw [hout] at herr
      exact absurd herr (by simp)
  · intro hb
    cases hres : toRPN2 ts with
    | error e => cases e; rfl
    | ok out =>
      have : balCheck ts 0 = true := h.mp ⟨out, hres⟩
      rw [this] at hb
      exact absurd hb (by simp)

theorem insertImplicitMultiplicationGo_spec :
    ∀ (rest : List Tok) (prev : Tok),
      prev :: insertImplicitMultiplicationGo prev rest = specInsertMul (prev :: rest) := by
  intro rest
  induction rest with
  | nil => intro prev; rfl
  | cons t rest' ih =>
    intro prev
    rw [insertImplicitMultiplicationGo, specInsertMul]
    split
    · simp only [List.cons_append, List.nil_append, ← ih t]
    · simp only [List.cons_append, List.nil_append, ← ih t]

/-- The code's `insertImplicitMultiplication` implements the spec rule. -/
theorem insertImplicitMultiplication_eq_spec (ts : List Tok) :
    insertImplicitMultiplication ts = specInsertMul ts := by
  cases ts with
  | nil => rfl
  | cons t rest => exact insertImplicitMultiplicationGo_spec rest t

/-! ### Factorial lemmas (claim C5). -/

theorem factorial_nat (n : ℕ) (h : n ≤ 170) :
    factorial (.fin n) = .fin (Nat.factorial n) := by
  rw [factorial]
  rw [if_neg (not_lt.mpr (Nat.cast_nonneg n))]
  rw [round_natCast]
  rw [if_neg (by push_cast; norm_num)]
  rw [if_neg (by exact_mod_cast not_lt.mpr h)]
  simp

theorem factorial_nat_overflow (n : ℕ) (h : 170 < n) :
    factorial (.fin n) = .posInf := by
  rw [factorial]
  rw [if_neg (not_lt.mpr (Nat.cast_nonneg n))]
  rw [round_natCast]
  rw [if_neg (by push_cast; norm_num)]
  rw [if_pos (by exact_mod_cast h)]

theorem factorial_neg (q : ℚ) (h : q < 0) :
    factorial (.fin (q : ℝ)) = .nan := by
  rw [factorial, if_pos (by exact_mod_cast h)]

theorem factorial_nonintegral (q : ℚ) (h : (1e-12 : ℚ) < |q - round q|) :
    factorial (.fin (q : ℝ)) = .nan := by
  rw [factorial]
  by_cases hq : (q : ℝ) < 0
  · rw [if_pos hq]
  · rw [if_neg hq]
    rw [if_pos ?_]
    rw [Rat.round_cast]
    have he : (1e-12 : ℝ) = ((1e-12 : ℚ) : ℝ) := by norm_num
    have h2 : ((round q : ℤ) : ℝ) = (((round q : ℤ) : ℚ) : ℝ) := by push_cast; ring
    rw [he, h2, ← Rat.cast_sub, ← Rat.cast_abs, Rat.cast_lt]
    exact h

theorem factorial_nonfinite :
    factorial .nan = .nan ∧ factorial .posInf = .nan ∧ factorial .negInf = .nan :=
  ⟨rfl, rfl, rfl⟩

/-! ### Trig conversion lemmas (claim C4). -/

theorem degToRad_fin (x : ℝ) : degToRad (.fin x) = .fin (x * Real.pi / 180) := by
  by_cases hx : x = 0
  · subst hx
    rw [degToRad]
    have h1 : (JSNum.fin (0:ℝ)).mul (.fin Real.pi) = .fin 0 := by
      simp [JSNum.mul, lt_irrefl, JSNum.zeroOfSign, Real.pi_pos.not_lt]
    rw [h1]
    have h2 : (JSNum.fin (0:ℝ)).div (.fin 180) = .fin 0 := by
      simp [JSNum.div, lt_irrefl, JSNum.zeroOfSign]
      try norm_num
    rw [h2]
    norm_num
  · rw [degToRad]
    rw [JSNum.mul_fin (mul_ne_zero hx Real.pi_ne_zero)]
    rw [JSNum.div_fin (mul_ne_zero hx Real.pi_ne_zero) (by norm_num)]

theorem radToDeg_fin (x : ℝ) : radToDeg (.fin x) = .fin (x * 180 / Real.pi) := by
  by_cases hx : x = 0
  · subst hx
    rw [radToDeg]
    have h1 : (JSNum.fin (0:ℝ)).mul (.fin 180) = .fin 0 := by
      simp [JSNum.mul, lt_irrefl, JSNum.zeroOfSign]
      try norm_num
    rw [h1]
    have h2 : (JSNum.fin (0:ℝ)).div (.fin Real.pi) = .fin 0 := by
      simp [JSNum.div, lt_irrefl, JSNum.zeroOfSign, Real.pi_pos.not_lt,
        Real.pi_ne_zero]
    rw [h2]
    norm_num
  · rw [radToDeg]
    rw [JSNum.mul_fin (by positivity)]
    rw [JSNum.div_fin (by positivity) Real.pi_ne_zero]

theorem radToDeg_nan : radToDeg .nan = .nan := by
  rw [radToDeg]
  have h1 : (JSNum.nan).mul (.fin 180) = .nan := by simp [JSNum.mul, JSNum.isNaN]
  rw [h1]
  simp [JSNum.div, JSNum.isNaN]

/-! ### Concrete pipeline runs used by the claims. -/

theorem numLitVal_int (m : ℕ) : (NumLit.val ⟨m, 0⟩ : ℝ) = m := by
  simp [NumLit.val]

/-- `Math.pow(x, n)` for a positive base and a natural exponent is the
ordinary power. -/
theorem powJS_fin_nat {x : ℝ} (n : ℕ) (hx : 0 < x) :
    (JSNum.fin x).powJS (.fin n) = .fin (x ^ n) := by
  rw [JSNum.powJS_fin_pos n hx, Real.rpow_natCast]

theorem eval_neg3sq (mode : Mode) (ansv : JSNum) :
    evaluateExpression mode ansv "-3^2" = .ok (.fin (-9)) := by
  have ht : tokenize "-3^2" =
      .ok [.op .uminus, .num ⟨3, 0⟩, .op .pow, .num ⟨2, 0⟩] := by decide
  have hr : toRPN2 [Tok.op .uminus, .num ⟨3, 0⟩, .op .pow, .num ⟨2, 0⟩] =
      .ok [.num ⟨3, 0⟩, .num ⟨2, 0⟩, .op .pow, .op .uminus] := by decide
  have hp : (JSNum.fin (3:ℝ)).powJS (.fin 2) = .fin 9 := by
    rw [show ((2:ℝ)) = ((2:ℕ):ℝ) by norm_num, powJS_fin_nat 2 (by norm_num)]
    norm_num
  have hn : (JSNum.fin (9:ℝ)).neg = .fin (-9) := JSNum.neg_fin (by norm_num)
  simp only [evaluateExpression, ht, hr, evalRPN, evalRPNLoop, applyBin,
    numLitVal_int, Nat.cast_ofNat, hp, hn]

theorem eval_50pct4 (mode : Mode) (ansv : JSNum) :
    evaluateExpression mode ansv "50%4" = .ok (.fin 2) := by
  have ht : tokenize "50%4" = .ok [.num ⟨50, 0⟩, .op .pct, .num ⟨4, 0⟩] := by decide
  have hr : toRPN2 [Tok.num ⟨50, 0⟩, .op .pct, .num ⟨4, 0⟩] =
      .ok [.num ⟨50, 0⟩, .num ⟨4, 0⟩, .op .pct] := by decide
  have hp : (JSNum.fin (50:ℝ)).pct (.fin 4) = .fin 2 := by
    rw [JSNum.pct_fin (by norm_num) (by norm_num)]
    norm_num
  simp only [evaluateExpression, ht, hr, evalRPN, evalRPNLoop, applyBin,
    numLitVal_int, Nat.cast_ofNat, hp]

theorem eval_10pct5pct2 (mode : Mode) (ansv : JSNum) :
    evaluateExpression mode ansv "10%5%2" = .ok (.fin (1 / 100)) := by
  have ht : tokenize "10%5%2" =
      .ok [.num ⟨10, 0⟩, .op .pct, .num ⟨5, 0⟩, .op .pct, .num ⟨2, 0⟩] := by decide
  have hr : toRPN2 [Tok.num ⟨10, 0⟩, .op .pct, .num ⟨5, 0⟩, .op .pct, .num ⟨2, 0⟩] =
      .ok [.num ⟨10, 0⟩, .num ⟨5, 0⟩, .op .pct, .num ⟨2, 0⟩, .op .pct] := by decide
  have h1 : (JSNum.fin (10:ℝ)).pct (.fin 5) = .fin (1 / 2) := by
    rw [JSNum.pct_fin (by norm_num) (by norm_num)]
    norm_num
  have h2 : (JSNum.fin (1/2:ℝ)).pct (.fin 2) = .fin (1 / 100) := by
    rw [JSNum.pct_fin (by norm_num) (by norm_num)]
    norm_num
  simp only [evaluateExpression, ht, hr, evalRPN, evalRPNLoop, applyBin,
    numLitVal_int, Nat.cast_ofNat, h1, h2]

theorem eval_10pct5pct2_paren (mode : Mode) (ansv : JSNum) :
    evaluateExpression mode ansv "(10%5)%2" = .ok (.fin (1 / 100)) := by
  have ht : tokenize "(10%5)%2" =
      .ok [.lparen, .num ⟨10, 0⟩, .op .pct, .num ⟨5, 0⟩, .rparen, .op .pct,
        .num ⟨2, 0⟩] := by decide
  have hr : toRPN2 [Tok.lparen, .num ⟨10, 0⟩, .op .pct, .num ⟨5, 0⟩, .rparen,
      .op .pct, .num ⟨2, 0⟩] =
      .ok [.num ⟨10, 0⟩, .num ⟨5, 0⟩, .op .pct, .num ⟨2, 0⟩, .op .pct] := by decide
  have h1 : (JSNum.fin (10:ℝ)).pct (.fin 5) = .fin (1 / 2) := by
    rw [JSNum.pct_fin (by norm_num) (by norm_num)]
    norm_num
  have h2 : (JSNum.fin (1/2:ℝ)).pct (.fin 2) = .fin (1 / 100) := by
    rw [JSNum.pct_fin (by norm_num) (by norm_num)]
    norm_num
  simp only [evaluateExpression, ht, hr, evalRPN, evalRPNLoop, applyBin,
    numLitVal_int, Nat.cast_ofNat, h1, h2]

theorem eval_sin90_deg (ansv : JSNum) :
    evaluateExpression .DEG ansv "sin(90)" = .ok (.fin 1) := by
  have ht : tokenize "sin(90)" =
      .ok [.fn .sin, .lparen, .num ⟨90, 0⟩, .rparen] := by decide
  have hr : toRPN2 [Tok.fn .sin, .lparen, .num ⟨90, 0⟩, .rparen] =
      .ok [.num ⟨90, 0⟩, .fn .sin] := by decide
  have happ : applyFn .DEG .sin (.fin 90) = .fin 1 := by
    have harg : (90:ℝ) * Real.pi / 180 = Real.pi / 2 := by ring
    simp [applyFn, degToRad_fin, harg, JSNum.sinJS, Real.sin_pi_div_two]
  simp only [evaluateExpression, ht, hr, evalRPN, evalRPNLoop,
    numLitVal_int, Nat.cast_ofNat, happ]

theorem eval_sin90_rad (ansv : JSNum) :
    evaluateExpression .RAD ansv "sin(90)" = .ok (.fin (Real.sin 90)) := by
  have ht : tokenize "sin(90)" =
      .ok [.fn .sin, .lparen, .num ⟨90, 0⟩, .rparen] := by decide
  have hr : toRPN2 [Tok.fn .sin, .lparen, .num ⟨90, 0⟩, .rparen] =
      .ok [.num ⟨90, 0⟩, .fn .sin] := by decide
  have happ : applyFn .RAD .sin (.fin 90) = .fin (Real.sin 90) := by
    simp [applyFn, JSNum.sinJS]
  simp only [evaluateExpression, ht, hr, evalRPN, evalRPNLoop,
    numLitVal_int, Nat.cast_ofNat, happ]

set_option maxHeartbeats 2000000 in
/-- Interval-arithmetic bound for `Real.sin 90` (the RAD-mode value of
`sin(90)`): reduce `90` mod `2π` to `29π - 90 ∈ (1.106, 1.107)` using the
20-digit bounds on `π`, then evaluate `sin` by two double-angle steps from the
Taylor bounds `Real.sin_bound`/`Real.cos_bound` at `(29π - 90)/4 < 1`. -/
theorem sin_ninety_bound : |Real.sin 90 - 0.8939966636| < 1 / 256 := by
  have hpi_lo := Real.pi_gt_d20
  have hpi_hi := Real.pi_lt_d20
  set v : ℝ := (29 * Real.pi - 90) / 4 with hvdef
  have hv_lo : (0.27654673852 : ℝ) < v := by rw [hvdef]; linarith
  have hv_hi : v < 0.27654673853 := by rw [hvdef]; linarith
  have hv_pos : (0:ℝ) < v := lt_trans (by norm_num) hv_lo
  have hv1 : |v| ≤ 1 := by
    rw [abs_of_pos hv_pos]
    linarith
  have hv2_lo : (0.07647809858 : ℝ) < v ^ 2 := by nlinarith
  have hv2_hi : v ^ 2 < 0.0764780986 := by nlinarith
  have hv3_lo : (0.0211497687 : ℝ) < v ^ 3 := by
    nlinarith [mul_pos (sub_pos.mpr hv_lo) (sub_pos.mpr hv2_lo)]
  have hv3_hi : v ^ 3 < 0.0211497688 := by
    nlinarith [mul_pos (sub_pos.mpr hv2_hi) hv_pos]
  have hv4_lo : (0.0058488995 : ℝ) < v ^ 4 := by
    nlinarith [sq_nonneg (v ^ 2 - 0.07647809858)]
  have hv4_hi : v ^ 4 < 0.0058488996 := by
    nlinarith [mul_pos (sub_pos.mpr hv2_hi) (by positivity : (0:ℝ) < 0.0764780986 + v ^ 2)]
  have hsb := abs_le.mp (by simpa [abs_of_pos hv_pos] using Real.sin_bound hv1)
  have hcb := abs_le.mp (by simpa [abs_of_pos hv_pos] using Real.cos_bound hv1)
  have hs_lo : (0.2727171 : ℝ) < Real.sin v := by linarith [hsb.1]
  have hs_hi : Real.sin v < 0.2733265 := by linarith [hsb.2]
  have hc_lo : (0.9614563 : ℝ) < Real.cos v := by linarith [hcb.1]
  have hc_hi : Real.cos v < 0.9620656 := by linarith [hcb.2]
  have hs2eq : Real.sin (2 * v) = 2 * Real.sin v * Real.cos v := Real.sin_two_mul v
  have hc2eq : Real.cos (2 * v) = 1 - 2 * Real.sin v ^ 2 := by
    rw [Real.cos_two_mul]
    have hpyth := Real.sin_sq_add_cos_sq v
    linarith
  have hd_lo : (0.5244111 : ℝ) < Real.sin (2 * v) := by
    rw [hs2eq]
    nlinarith [mul_pos (sub_pos.mpr hs_lo) (sub_pos.mpr hc_lo)]
  have hd_hi : Real.sin (2 * v) < 0.5259163 := by
    rw [hs2eq]
    nlinarith [mul_pos (sub_pos.mpr hs_hi) (sub_pos.mpr hc_hi)]
  have he_lo : (0.8505852 : ℝ) < Real.cos (2 * v) := by
    rw [hc2eq]
    nlinarith [mul_pos (sub_pos.mpr hs_hi) (by linarith : (0:ℝ) < 0.2733265 + Real.sin v)]
  have he_hi : Real.cos (2 * v) < 0.8512508 := by
    rw [hc2eq]
    nlinarith [mul_pos (sub_pos.mpr hs_lo) (by linarith : (0:ℝ) < Real.sin v + 0.2727171)]
  have hs4eq : Real.sin (4 * v) = 2 * Real.sin (2 * v) * Real.cos (2 * v) := by
    rw [show (4:ℝ) * v = 2 * (2 * v) by ring, Real.sin_two_mul]
  have hs4_lo : (0.89211264 : ℝ) < Real.sin (4 * v) := by
    rw [hs4eq]
    nlinarith [mul_pos (sub_pos.mpr hd_lo) (sub_pos.mpr he_lo)]
  have hs4_hi : Real.sin (4 * v) < 0.89537335 := by
    rw [hs4eq]
    nlinarith [mul_pos (sub_pos.mpr hd_hi) (sub_pos.mpr he_hi)]
  have hper : Real.sin (4 * v) = Real.sin 90 := by
    have h1 : Real.sin (90 - (14:ℕ) * (2 * Real.pi)) = Real.sin 90 :=
      Real.sin_periodic.sub_nat_mul_eq 14
    have h2 : Real.sin (Real.pi - (90 - (14:ℕ) * (2 * Real.pi))) =
        Real.sin (90 - (14:ℕ) * (2 * Real.pi)) := Real.sin_pi_sub _
    rw [show 4 * v = Real.pi - (90 - (14:ℕ) * (2 * Real.pi)) by
      rw [hvdef]; push_cast; ring]
    rw [h2, h1]
  rw [← hper, abs_sub_lt_iff]
  constructor <;> linarith

theorem eval_5bang (mode : Mode) (ansv : JSNum) :
    evaluateExpression mode ansv "5!" = .error (.eval .badExpression) := by
  have ht : tokenize "5!" = .ok [.num ⟨5, 0⟩, .op .mul, .fn .fact] := by decide
  have hr : toRPN2 [Tok.num ⟨5, 0⟩, .op .mul, .fn .fact] =
      .ok [.num ⟨5, 0⟩, .fn .fact, .op .mul] := by decide
  simp only [evaluateExpression, ht, hr, evalRPN, evalRPNLoop]

theorem eval_35bang (mode : Mode) (ansv : JSNum) :
    evaluateExpression mode ansv "3.5!" = .error (.eval .badExpression) := by
  have ht : tokenize "3.5!" = .ok [.num ⟨35, 1⟩, .op .mul, .fn .fact] := by decide
  have hr : toRPN2 [Tok.num ⟨35, 1⟩, .op .mul, .fn .fact] =
      .ok [.num ⟨35, 1⟩, .fn .fact, .op .mul] := by decide
  simp only [evaluateExpression, ht, hr, evalRPN, evalRPNLoop]

theorem eval_2powneg3 (mode : Mode) (ansv : JSNum) :
    evaluateExpression mode ansv "2^-3" = .error (.eval .badExpression) := by
  have ht : tokenize "2^-3" =
      .ok [.num ⟨2, 0⟩, .op .pow, .op .uminus, .num ⟨3, 0⟩] := by decide
  have hr : toRPN2 [Tok.num ⟨2, 0⟩, .op .pow, .op .uminus, .num ⟨3, 0⟩] =
      .ok [.num ⟨2, 0⟩, .op .pow, .num ⟨3, 0⟩, .op .uminus] := by decide
  simp only [evaluateExpression, ht, hr, evalRPN, evalRPNLoop]

theorem eval_paren_pow_uminus (mode : Mode) (ansv : JSNum) :
    evaluateExpression mode ansv "(2)(3)^-4" = .ok (.fin (-32)) := by
  have ht : tokenize "(2)(3)^-4" =
      .ok [.lparen, .num ⟨2, 0⟩, .rparen, .op .mul, .lparen, .num ⟨3, 0⟩,
        .rparen, .op .pow, .op .uminus, .num ⟨4, 0⟩] := by decide
  have hr : toRPN2 [Tok.lparen, .num ⟨2, 0⟩, .rparen, .op .mul, .lparen,
      .num ⟨3, 0⟩, .rparen, .op .pow, .op .uminus, .num ⟨4, 0⟩] =
      .ok [.num ⟨2, 0⟩, .num ⟨3, 0⟩, .op .pow, .num ⟨4, 0⟩, .op .uminus,
        .op .mul] := by decide
  have hp : (JSNum.fin (2:ℝ)).powJS (.fin 3) = .fin 8 := by
    rw [show ((3:ℝ)) = ((3:ℕ):ℝ) by norm_num, powJS_fin_nat 3 (by norm_num)]
    norm_num
  have hn : (JSNum.fin (4:ℝ)).neg = .fin (-4) := JSNum.neg_fin (by norm_num)
  have hm : (JSNum.fin (8:ℝ)).mul (.fin (-4)) = .fin (-32) := by
    rw [JSNum.mul_fin (by norm_num)]
    norm_num
  simp only [evaluateExpression, ht, hr, evalRPN, evalRPNLoop, applyBin,
    numLitVal_int, Nat.cast_ofNat, hp, hn, hm]

theorem eval_sqrtneg1 (mode : Mode) (ansv : JSNum) :
    evaluateExpression mode ansv "sqrt(-1)" = .ok .nan := by
  have ht : tokenize "sqrt(-1)" =
      .ok [.fn .sqrt, .lparen, .op .uminus, .num ⟨1, 0⟩, .rparen] := by decide
  have hr : toRPN2 [Tok.fn .sqrt, .lparen, .op .uminus, .num ⟨1, 0⟩, .rparen] =
      .ok [.num ⟨1, 0⟩, .op .uminus, .fn .sqrt] := by decide
  have hn : (JSNum.fin (1:ℝ)).neg = .fin (-1) := JSNum.neg_fin (by norm_num)
  have hs : applyFn mode .sqrt (.fin (-1)) = .nan := by
    simp [applyFn, JSNum.sqrtJS, show (-1:ℝ) < 0 by norm_num]
  simp only [evaluateExpression, ht, hr, evalRPN, evalRPNLoop,
    numLitVal_int, Nat.cast_one, hn, hs]

theorem eval_asin2 (mode : Mode) (ansv : JSNum) :
    evaluateExpression mode ansv "asin(2)" = .ok .nan := by
  have ht : tokenize "asin(2)" =
      .ok [.fn .asin, .lparen, .num ⟨2, 0⟩, .rparen] := by decide
  have hr : toRPN2 [Tok.fn .asin, .lparen, .num ⟨2, 0⟩, .rparen] =
      .ok [.num ⟨2, 0⟩, .fn .asin] := by decide
  have ha : JSNum.asinJS (.fin 2) = .nan := by
    simp [JSNum.asinJS, show ¬ |(2:ℝ)| ≤ 1 by rw [abs_of_pos] <;> norm_num]
  have happ : applyFn mode .asin (.fin 2) = .nan := by
    cases mode with
    | DEG => simp [applyFn, ha, radToDeg_nan]
    | RAD => simp [applyFn, ha]
  simp only [evaluateExpression, ht, hr, evalRPN, evalRPNLoop,
    numLitVal_int, Nat.cast_ofNat, happ]

theorem eval_1div0 (mode : Mode) (ansv : JSNum) :
    evaluateExpression mode ansv "1/0" = .ok .posInf := by
  have ht : tokenize "1/0" = .ok [.num ⟨1, 0⟩, .op .div, .num ⟨0, 0⟩] := by decide
  have hr : toRPN2 [Tok.num ⟨1, 0⟩, .op .div, .num ⟨0, 0⟩] =
      .ok [.num ⟨1, 0⟩, .num ⟨0, 0⟩, .op .div] := by decide
  have hd : (JSNum.fin (1:ℝ)).div (.fin 0) = .posInf := by
    simp [JSNum.div, JSNum.infOfSign, lt_irrefl, show ¬(1:ℝ) < 0 by norm_num,
      show (1:ℝ) ≠ 0 by norm_num]
  simp only [evaluateExpression, ht, hr, evalRPN, evalRPNLoop, applyBin,
    numLitVal_int, Nat.cast_one, Nat.cast_zero, hd]

theorem eval_0pow0 (mode : Mode) (ansv : JSNum) :
    evaluateExpression mode ansv "0^0" = .ok (.fin 1) := by
  have ht : tokenize "0^0" = .ok [.num ⟨0, 0⟩, .op .pow, .num ⟨0, 0⟩] := by decide
  have hr : toRPN2 [Tok.num ⟨0, 0⟩, .op .pow, .num ⟨0, 0⟩] =
      .ok [.num ⟨0, 0⟩, .num ⟨0, 0⟩, .op .pow] := by decide
  have hp : (JSNum.fin (0:ℝ)).powJS (.fin 0) = .fin 1 := by
    simp [JSNum.powJS, JSNum.isNaN]
  simp only [evaluateExpression, ht, hr, evalRPN, evalRPNLoop, applyBin,
    numLitVal_int, Nat.cast_zero, hp]

theorem eval_2pi (mode : Mode) (ansv : JSNum) :
    evaluateExpression mode ansv "2pi" = .ok (.fin (2 * Real.pi)) := by
  have ht : tokenize "2pi" = .ok [.num ⟨2, 0⟩, .op .mul, .const .pi] := by decide
  have hr : toRPN2 [Tok.num ⟨2, 0⟩, .op .mul, .const .pi] =
      .ok [.num ⟨2, 0⟩, .const .pi, .op .mul] := by decide
  have hm : (JSNum.fin (2:ℝ)).mul (.fin Real.pi) = .fin (2 * Real.pi) :=
    JSNum.mul_fin (by positivity)
  simp only [evaluateExpression, ht, hr, evalRPN, evalRPNLoop, applyBin,
    constVal, numLitVal_int, Nat.cast_ofNat, hm]

theorem eval_2timespi (mode : Mode) (ansv : JSNum) :
    evaluateExpression mode ansv "2*pi" = .ok (.fin (2 * Real.pi)) := by
  have ht : tokenize "2*pi" = .ok [.num ⟨2, 0⟩, .op .mul, .const .pi] := by decide
  have hr : toRPN2 [Tok.num ⟨2, 0⟩, .op .mul, .const .pi] =
      .ok [.num ⟨2, 0⟩, .const .pi, .op .mul] := by decide
  have hm : (JSNum.fin (2:ℝ)).mul (.fin Real.pi) = .fin (2 * Real.pi) :=
    JSNum.mul_fin (by positivity)
  simp only [evaluateExpression, ht, hr, evalRPN, evalRPNLoop, applyBin,
    constVal, numLitVal_int, Nat.cast_ofNat, hm]

theorem eval_open_paren (mode : Mode) (ansv : JSNum) :
    evaluateExpression mode ansv "(2+3" = .error (.parse .mismatchedParen) := by
  have ht : tokenize "(2+3" =
      .ok [.lparen, .num ⟨2, 0⟩, .op .add, .num ⟨3, 0⟩] := by decide
  have hr : toRPN2 [Tok.lparen, .num ⟨2, 0⟩, .op .add, .num ⟨3, 0⟩] =
      .error .mismatchedParen := by decide
  simp only [evaluateExpression, ht, hr]

theorem eval_2plus (mode : Mode) (ansv : JSNum) :
    evaluateExpression mode ansv "2+" = .error (.eval .badExpression) := by
  have ht : tokenize "2+" = .ok [.num ⟨2, 0⟩, .op .add] := by decide
  have hr : toRPN2 [Tok.num ⟨2, 0⟩, .op .add] =
      .ok [.num ⟨2, 0⟩, .op .add] := by decide
  simp only [evaluateExpression, ht, hr, evalRPN, evalRPNLoop]

/-! ### Formatting lemmas (claim C8). -/

theorem digitChar_ne_E : ∀ d : ℕ, digitChar d ≠ 'E'
  | 0 => by decide
  | 1 => by decide
  | 2 => by decide
  | 3 => by decide
  | 4 => by decide
  | 5 => by decide
  | 6 => by decide
  | 7 => by decide
  | 8 => by decide
  | 9 => by decide
  | _ + 10 => (by decide : ('*' : Char) ≠ 'E')

theorem digitChar_ne_dot : ∀ d : ℕ, digitChar d ≠ '.'
  | 0 => by decide
  | 1 => by decide
  | 2 => by decide
  | 3 => by decide
  | 4 => by decide
  | 5 => by decide
  | 6 => by decide
  | 7 => by decide
  | 8 => by decide
  | 9 => by decide
  | _ + 10 => (by decide : ('*' : Char) ≠ '.')

theorem mem_natDigitsAux :
    ∀ (fuel n : ℕ) (c : Char), c ∈ natDigitsAux n fuel → ∃ d, c = digitChar d := by
  intro fuel
  induction fuel with
  | zero => intro n c h; simp [natDigitsAux] at h
  | succ fuel ih =>
    intro n c h
    rw [natDigitsAux] at h
    split at h
    · simp at h
    · rw [List.mem_append] at h
      rcases h with h | h
      · exact ih (n / 10) c h
      · exact ⟨n % 10, by simpa using h⟩

theorem mem_natDigits {c : Char} {n : ℕ} (h : c ∈ natDigits n) :
    ∃ d, c = digitChar d := by
  rw [natDigits] at h
  split at h
  · exact ⟨0, by simpa [digitChar] using h⟩
  · exact mem_natDigitsAux 400 n c h

theorem mem_dropTrailingZeros {c : Char} {cs : List Char}
    (h : c ∈ dropTrailingZeros cs) : c ∈ cs := by
  rw [dropTrailingZeros, List.mem_reverse] at h
  rw [← List.mem_reverse]
  exact (List.dropWhile_sublist _).subset h

theorem mem_padLeft {c : Char} {d : ℕ} {cs : List Char} (h : c ∈ padLeft d cs) :
    c = '0' ∨ c ∈ cs := by
  rw [padLeft, List.mem_append] at h
  rcases h with h | h
  · exact Or.inl (List.eq_of_mem_replicate h)
  · exact Or.inr h

/-- Every character of `renderDec` output is a sign, a dot, or a digit. -/
theorem renderDec_chars (m k : ℤ) :
    ∀ c ∈ (renderDec m k).data, c = '-' ∨ c = '.' ∨ ∃ d, c = digitChar d := by
  intro c hc
  rw [renderDec] at hc
  split at hc
  · simp only [String.mk] at hc
    rw [List.mem_append] at hc
    rcases hc with hc | hc
    · split at hc
      · exact Or.inl (by simpa using hc)
      · simp at hc
    · exact Or.inr (Or.inr (mem_natDigits hc))
  · simp only [String.mk] at hc
    rw [List.mem_append, List.mem_append] at hc
    rcases hc with (hc | hc) | hc
    · split at hc
      · exact Or.inl (by simpa using hc)
      · simp at hc
    · exact Or.inr (Or.inr (mem_natDigits hc))
    · split at hc
      · simp at hc
      · rcases List.mem_cons.mp hc with hc | hc
        · exact Or.inr (Or.inl hc)
        · rcases mem_padLeft (mem_dropTrailingZeros hc) with h0 | h0
          · exact Or.inr (Or.inr ⟨0, by simpa [digitChar] using h0⟩)
          · exact Or.inr (Or.inr (mem_natDigitsAux 400 _ c h0))

theorem renderDec_ne_Error (m k : ℤ) : renderDec m k ≠ "Error" := by
  intro h
  have hE : 'E' ∈ (renderDec m k).data := by
    rw [h]
    decide
  rcases renderDec_chars m k 'E' hE with h1 | h1 | ⟨d, h1⟩
  · exact absurd h1 (by decide)
  · exact absurd h1 (by decide)
  · exact digitChar_ne_E d h1.symm

theorem head_dropWhile_ne_zero :
    ∀ l : List Char, (l.dropWhile (· = '0')).head? ≠ some '0' := by
  intro l
  induction l with
  | nil => simp
  | cons c t ih =>
    rw [List.dropWhile_cons]
    split
    · exact ih
    · simpa using fun hc => by simp_all

theorem natDigits_ne_nil (n : ℕ) : natDigits n ≠ [] := by
  rw [natDigits]
  split
  · simp
  · rename_i hn
    rw [show (400:ℕ) = 399 + 1 from rfl, natDigitsAux]
    simp [hn]

theorem getLast_cons_ne_nil {a : Char} {l : List Char} (h : l ≠ []) :
    (a :: l).getLast? = l.getLast? :=
  List.getLast?_append_of_ne_nil [a] h

theorem dropTrailingZeros_getLast (cs : List Char) :
    (dropTrailingZeros cs).getLast? ≠ some '0' := by
  rw [dropTrailingZeros, List.getLast?_reverse]
  exact head_dropWhile_ne_zero cs.reverse

/-- Insignificant trailing zeros are dropped: whenever the rendering contains
a decimal point, it does not end in `'0'`. -/
theorem renderDec_no_trailing_zero (m k : ℤ)
    (hdot : '.' ∈ (renderDec m k).data) :
    (renderDec m k).data.getLast? ≠ some '0' := by
  rw [renderDec] at hdot ⊢
  by_cases hk : 0 ≤ k
  · rw [if_pos hk] at hdot
    exfalso
    simp only [String.mk, List.mem_append] at hdot
    rcases hdot with hc | hc
    · split at hc <;> simp at hc
    · rcases mem_natDigits hc with ⟨d, hd⟩
      exact digitChar_ne_dot d hd.symm
  · rw [if_neg hk] at hdot ⊢
    simp only [String.mk, List.mem_append] at hdot
    dsimp only
    rcases hdot with hc | hc
    · rcases hc with hc | hc
      · exfalso
        split at hc <;> simp at hc
      · exfalso
        rcases mem_natDigits hc with ⟨d, hd⟩
        exact digitChar_ne_dot d hd.symm
    · have hfr : ¬ (dropTrailingZeros (padLeft (-k).toNat
          (natDigitsAux (m.natAbs % 10 ^ (-k).toNat) 400)) = []) := by
        intro hnil
        rw [hnil] at hc
        simp at hc
      rw [if_neg hfr] at hc ⊢
      rw [List.getLast?_append_of_ne_nil]
      · rw [getLast_cons_ne_nil hfr]
        exact dropTrailingZeros_getLast _
      · simp

theorem sig12_zero : sig12 0 = (0, 0) := if_pos rfl

/-- The 12-significant-digit rounding is within half an ulp of the twelfth
significant digit. -/
theorem sig12_bound (x : ℝ) (hx : x ≠ 0) :
    |((sig12 x).1 : ℝ) * (10 : ℝ) ^ (sig12 x).2 - x| ≤
      (10 : ℝ) ^ (Int.log 10 |x| - 11) / 2 := by
  rw [sig12, if_neg hx]
  set k : ℤ := Int.log 10 |x| - 11 with hk
  have h10 : (0:ℝ) < (10 : ℝ) ^ k := by positivity
  have hr := abs_sub_round (x / (10 : ℝ) ^ k)
  have heq : ((round (x / (10 : ℝ) ^ k) : ℤ) : ℝ) * (10 : ℝ) ^ k - x =
      (((round (x / (10 : ℝ) ^ k) : ℤ) : ℝ) - x / (10 : ℝ) ^ k) * (10 : ℝ) ^ k := by
    field_simp
  dsimp only
  rw [heq, abs_mul, abs_of_pos h10, abs_sub_comm]
  calc |x / (10:ℝ) ^ k - ((round (x / (10:ℝ) ^ k) : ℤ) : ℝ)| * (10:ℝ) ^ k
      ≤ 1 / 2 * (10:ℝ) ^ k := by
        apply mul_le_mul_of_nonneg_right _ h10.le
        exact hr
    _ = (10:ℝ) ^ k / 2 := by ring

theorem formatNumber_error_iff (n : JSNum) :
    formatNumber n = "Error" ↔ n.isFiniteJS = false := by
  cases n with
  | nan => simp [formatNumber, JSNum.isFiniteJS]
  | posInf => simp [formatNumber, JSNum.isFiniteJS]
  | negInf => simp [formatNumber, JSNum.isFiniteJS]
  | negZero => simp [formatNumber, JSNum.isFiniteJS, renderDec_ne_Error]
  | fin x => simp [formatNumber, JSNum.isFiniteJS, renderDec_ne_Error]

theorem formatNumber_negZero : formatNumber .negZero = "0" := by
  rw [formatNumber]
  rw [if_neg (by simp)]
  rw [show JSNum.negZero.finVal = 0 from rfl, sig12_zero]
  decide

theorem formatNumber_zero : formatNumber (.fin 0) = "0" := by
  rw [formatNumber]
  rw [if_neg (by simp)]
  rw [show (JSNum.fin 0).finVal = 0 from rfl, sig12_zero]
  decide

theorem sig12_one : sig12 1 = (10 ^ 11, -11) := by
  rw [sig12, if_neg (by norm_num)]
  have hlog : Int.log 10 |(1:ℝ)| = 0 := by
    rw [abs_one]
    exact Int.log_one_right 10
  have hzp : (1:ℝ) / (10 : ℝ) ^ ((0:ℤ) - 11) = ((10 ^ 11 : ℤ) : ℝ) := by
    rw [show ((0:ℤ) - 11) = -11 from rfl, zpow_neg, one_div, inv_inv]
    norm_num
  dsimp only
  rw [hlog, hzp, round_intCast]
  norm_num

theorem formatNumber_one : formatNumber (.fin 1) = "1" := by
  rw [formatNumber]
  rw [if_neg (by simp)]
  rw [show (JSNum.fin 1).finVal = 1 from rfl, sig12_one]
  decide

/-! ### Claim theorems. -/

/-- C1 (corrected).  The original claim — that every postfix sequence the
parser produces from a lexer-accepted string satisfies the stack-depth
invariant, so `evalRPN` never throws on it — is false (see
`C1_counterexample`: the lexer accepts `"2+"`).  What holds: `evalRPN`
succeeds on a postfix sequence exactly when the depth automaton accepts
(depth never below the consumed arity, exactly 1 at the end, no parenthesis
tokens), and parser output indeed never contains parenthesis tokens. -/
theorem C1_amended :
    (∀ (mode : Mode) (ansv : JSNum) (rpn : List Tok),
      (∃ v, evalRPN mode ansv rpn = .ok v) ↔ rpnDepth rpn 0 = some 1) ∧
    (∀ ts rpn : List Tok, toRPN2 ts = .ok rpn → noParens rpn = true) := by
  constructor
  · intro mode ansv rpn
    simpa using evalRPNLoop_ok_iff mode ansv rpn []
  · exact toRPN2_noParens

/-- C1: counterexample to the claim as stated.  The Lexer accepts `"2+"`, the
Parser turns it into the postfix sequence `[2, +]`, and the Evaluator throws
`"Bad expression"` (the spec's `StackUnderflow`) on it: the stack-depth
invariant does not hold for parser output on every lexer-accepted string. -/
theorem C1_counterexample :
    tokenize "2+" = .ok [.num ⟨2, 0⟩, .op .add] ∧
    toRPN2 [Tok.num ⟨2, 0⟩, .op .add] = .ok [.num ⟨2, 0⟩, .op .add] ∧
    evaluateExpression .DEG (.fin 0) "2+" = .error (.eval .badExpression) ∧
    rpnDepth [Tok.num ⟨2, 0⟩, .op .add] 0 ≠ some 1 :=
  ⟨by decide, by decide, eval_2plus .DEG (.fin 0), by decide⟩

/-- C1: witness instantiating `C1_amended` at a concrete postfix sequence. -/
theorem C1_witness :
    ((∃ v, evalRPN .DEG (.fin 0) [.num ⟨2, 0⟩, .num ⟨3, 0⟩, .op .add] = .ok v) ↔
      rpnDepth [Tok.num ⟨2, 0⟩, .num ⟨3, 0⟩, .op .add] 0 = some 1) ∧
    noParens [Tok.num ⟨2, 0⟩, .num ⟨3, 0⟩, .op .add] = true :=
  ⟨C1_amended.1 .DEG (.fin 0) _,
    C1_amended.2 [.num ⟨2, 0⟩, .op .add, .num ⟨3, 0⟩] _ (by decide)⟩

/-- C2 (confirmed).  The `OP` table is exactly the claimed precedence table,
and `"-3^2"` evaluates to exactly `-9` (the exponentiation binds tighter than
the unary minus), not `9`. -/
theorem C2_precedence_neg3sq :
    OP .add = ⟨1, .L, 2⟩ ∧ OP .sub = ⟨1, .L, 2⟩ ∧ OP .mul = ⟨2, .L, 2⟩ ∧
    OP .div = ⟨2, .L, 2⟩ ∧ OP .pct = ⟨2, .L, 2⟩ ∧ OP .uminus = ⟨3, .R, 1⟩ ∧
    OP .pow = ⟨4, .R, 2⟩ ∧
    ∀ (mode : Mode) (ansv : JSNum),
      evaluateExpression mode ansv "-3^2" = .ok (.fin (-9)) ∧
      evaluateExpression mode ansv "-3^2" ≠ .ok (.fin 9) := by
  refine ⟨rfl, rfl, rfl, rfl, rfl, rfl, rfl, fun mode ansv => ⟨eval_neg3sq mode ansv, ?_⟩⟩
  rw [eval_neg3sq mode ansv]
  simp only [ne_eq, Except.ok.injEq, JSNum.fin.injEq]
  norm_num

/-- C3 (confirmed).  `%` has precedence 2, left-associative, arity 2; on
finite operands it computes `a * (b / 100)` (percentage-of, never a
failure); `"50%4"` evaluates to exactly `2`; and `"10%5%2"` parses to the
left-associated postfix `[10, 5, %, 2, %]` and evaluates like `"(10%5)%2"`
to `0.01`. -/
theorem C3_percent :
    OP .pct = ⟨2, .L, 2⟩ ∧
    (∀ a b : ℝ, ((JSNum.fin a).pct (.fin b)).isFiniteJS = true ∧
      ((JSNum.fin a).pct (.fin b)).finVal = a * (b / 100)) ∧
    (∀ (mode : Mode) (ansv : JSNum),
      evaluateExpression mode ansv "50%4" = .ok (.fin 2)) ∧
    toRPN2 [Tok.num ⟨10, 0⟩, .op .pct, .num ⟨5, 0⟩, .op .pct, .num ⟨2, 0⟩] =
      .ok [.num ⟨10, 0⟩, .num ⟨5, 0⟩, .op .pct, .num ⟨2, 0⟩, .op .pct] ∧
    ∀ (mode : Mode) (ansv : JSNum),
      evaluateExpression mode ansv "10%5%2" = evaluateExpression mode ansv "(10%5)%2" ∧
      evaluateExpression mode ansv "10%5%2" = .ok (.fin (1 / 100)) := by
  refine ⟨rfl, JSNum.pct_fin_val, eval_50pct4, by decide, fun mode ansv => ⟨?_, eval_10pct5pct2 mode ansv⟩⟩
  rw [eval_10pct5pct2 mode ansv, eval_10pct5pct2_paren mode ansv]

/-- C4 (confirmed).  `sin/cos/tan` convert a DEG-mode operand
degrees→radians before the native call and use the raw operand in RAD mode;
`asin/acos/atan` apply the native call to the raw operand and convert the
result radians→degrees in DEG mode.  `evaluate("sin(90)")` is exactly `1` in
DEG mode and `Real.sin 90 ≈ 0.8939966636` (within `1/256`) in RAD mode. -/
theorem C4_trig_modes :
    (∀ x : ℝ, applyFn .DEG .sin (.fin x) = .fin (Real.sin (x * Real.pi / 180)) ∧
      applyFn .RAD .sin (.fin x) = .fin (Real.sin x)) ∧
    (∀ x : ℝ, applyFn .DEG .cos (.fin x) = .fin (Real.cos (x * Real.pi / 180)) ∧
      applyFn .RAD .cos (.fin x) = .fin (Real.cos x)) ∧
    (∀ x : ℝ, applyFn .DEG .tan (.fin x) = .fin (Real.tan (x * Real.pi / 180)) ∧
      applyFn .RAD .tan (.fin x) = .fin (Real.tan x)) ∧
    (∀ x : ℝ, |x| ≤ 1 →
      applyFn .DEG .asin (.fin x) = .fin (Real.arcsin x * 180 / Real.pi) ∧
      applyFn .RAD .asin (.fin x) = .fin (Real.arcsin x)) ∧
    (∀ x : ℝ, |x| ≤ 1 →
      applyFn .DEG .acos (.fin x) = .fin (Real.arccos x * 180 / Real.pi) ∧
      applyFn .RAD .acos (.fin x) = .fin (Real.arccos x)) ∧
    (∀ x : ℝ, applyFn .DEG .atan (.fin x) = .fin (Real.arctan x * 180 / Real.pi) ∧
      applyFn .RAD .atan (.fin x) = .fin (Real.arctan x)) ∧
    (∀ ansv : JSNum, evaluateExpression .DEG ansv "sin(90)" = .ok (.fin 1)) ∧
    (∀ ansv : JSNum, evaluateExpression .RAD ansv "sin(90)" = .ok (.fin (Real.sin 90))) ∧
    |Real.sin 90 - 0.8939966636| < 1 / 256 := by
  refine ⟨?_, ?_, ?_, ?_, ?_, ?_, eval_sin90_deg, eval_sin90_rad, sin_ninety_bound⟩
  · intro x
    exact ⟨by simp [applyFn, degToRad_fin, JSNum.sinJS],
      by simp [applyFn, JSNum.sinJS]⟩
  · intro x
    exact ⟨by simp [applyFn, degToRad_fin, JSNum.cosJS],
      by simp [applyFn, JSNum.cosJS]⟩
  · intro x
    exact ⟨by simp [applyFn, degToRad_fin, JSNum.tanJS],
      by simp [applyFn, JSNum.tanJS]⟩
  · intro x hx
    exact ⟨by simp [applyFn, JSNum.asinJS, hx, radToDeg_fin],
      by simp [applyFn, JSNum.asinJS, hx]⟩
  · intro x hx
    exact ⟨by simp [applyFn, JSNum.acosJS, hx, radToDeg_fin],
      by simp [applyFn, JSNum.acosJS, hx]⟩
  · intro x
    exact ⟨by simp [applyFn, JSNum.atanJS, radToDeg_fin],
      by simp [applyFn, JSNum.atanJS]⟩

/-- C4: witness instantiating the inverse-trig conversion rule at `x = 0`. -/
theorem C4_witness :
    |(0:ℝ)| ≤ 1 ∧
    applyFn .DEG .asin (.fin 0) = .fin (Real.arcsin 0 * 180 / Real.pi) :=
  ⟨by simp, (C4_trig_modes.2.2.2.1 0 (by simp)).1⟩

/-- C5 (code bug).  The `factorial` helper itself meets the claim: exact
factorial for non-negative operands integral within `1e-12` (rounded), `NaN`
for negative / non-finite / non-integral operands, `+∞` above `170`.  But
`evaluate("5!")` does NOT return `120`: `insertImplicitMultiplication`
inserts a `*` between the number and the postfix factorial marker (its
`canRight` admits every `fn` token), producing postfix `[5, fact, *]`, so
`evalRPN` throws `"Bad expression"` — likewise `"3.5!"` throws instead of
formatting a NaN to `"Error"`. -/
theorem C5_factorial :
    (∀ n : ℕ, n ≤ 170 → factorial (.fin n) = .fin (Nat.factorial n)) ∧
    (∀ n : ℕ, 170 < n → factorial (.fin n) = .posInf) ∧
    (∀ q : ℚ, q < 0 → factorial (.fin (q : ℝ)) = .nan) ∧
    (∀ q : ℚ, (1e-12 : ℚ) < |q - round q| → factorial (.fin (q : ℝ)) = .nan) ∧
    factorial .nan = .nan ∧ factorial .posInf = .nan ∧
    factorial (.fin (7 / 2 : ℝ)) = .nan ∧
    factorial (.fin 5) = .fin 120 ∧
    (∀ (mode : Mode) (ansv : JSNum),
      evaluateExpression mode ansv "5!" = .error (.eval .badExpression)) ∧
    (∀ (mode : Mode) (ansv : JSNum),
      evaluateExpression mode ansv "3.5!" = .error (.eval .badExpression)) := by
  refine ⟨factorial_nat, factorial_nat_overflow, factorial_neg,
    factorial_nonintegral, rfl, rfl, ?_, ?_, eval_5bang, eval_35bang⟩
  · have h := factorial_nonintegral (7 / 2) ?_
    · rw [show (((7 / 2 : ℚ)) : ℝ) = (7 / 2 : ℝ) by norm_num] at h
      exact h
    · have hr : round ((7 : ℚ) / 2) = 4 := by
        rw [round_eq]
        norm_num [Int.floor_eq_iff]
      rw [hr]
      rw [show ((7 : ℚ) / 2 - ((4 : ℤ) : ℚ)) = -(1 / 2) by push_cast; norm_num]
      rw [abs_neg, abs_of_pos (by norm_num : (0:ℚ) < 1 / 2)]
      norm_num
  · have h := factorial_nat 5 (by norm_num)
    rw [show ((5:ℕ) : ℝ) = (5:ℝ) by norm_num] at h
    rw [h]
    norm_num [Nat.factorial]

/-- C5: witness instantiating the general parts at concrete operands. -/
theorem C5_witness :
    ((5:ℕ) ≤ 170 ∧ factorial (.fin (5:ℕ)) = .fin (Nat.factorial 5)) ∧
    (170 < (171:ℕ) ∧ factorial (.fin (171:ℕ)) = .posInf) ∧
    ((-1 : ℚ) < 0 ∧ factorial (.fin ((-1 : ℚ) : ℝ)) = .nan) :=
  ⟨⟨by norm_num, C5_factorial.1 5 (by norm_num)⟩,
    ⟨by norm_num, C5_factorial.2.1 171 (by norm_num)⟩,
    ⟨by norm_num, C5_factorial.2.2.1 (-1) (by norm_num)⟩⟩

/-- C6 (confirmed).  Domain-invalid math produces an `ok` non-finite value —
never a typed evaluation error: `sqrt(-1)` and `asin(2)` yield `NaN`, `1/0`
yields `+∞`; the non-finite values surface as `"Error"` only in
`formatNumber`; and `0^0` evaluates to exactly `1` (formatted `"1"`). -/
theorem C6_domain_errors :
    (∀ (mode : Mode) (ansv : JSNum),
      evaluateExpression mode ansv "sqrt(-1)" = .ok .nan) ∧
    (∀ (mode : Mode) (ansv : JSNum),
      evaluateExpression mode ansv "asin(2)" = .ok .nan) ∧
    (∀ (mode : Mode) (ansv : JSNum),
      evaluateExpression mode ansv "1/0" = .ok .posInf) ∧
    formatNumber .nan = "Error" ∧ formatNumber .posInf = "Error" ∧
    (∀ (mode : Mode) (ansv : JSNum),
      evaluateExpression mode ansv "0^0" = .ok (.fin 1)) ∧
    formatNumber (.fin 1) = "1" :=
  ⟨eval_sqrtneg1, eval_asin2, eval_1div0, rfl, rfl, eval_0pow0, formatNumber_one⟩

/-- C7 (confirmed).  `insertImplicitMultiplication` implements exactly the
claimed pairwise rule (`specInsertMul`), and `"2pi"` evaluates like
`"2*pi"` to exactly `2π`. -/
theorem C7_implicit_mul :
    (∀ ts : List Tok, insertImplicitMultiplication ts = specInsertMul ts) ∧
    ∀ (mode : Mode) (ansv : JSNum),
      evaluateExpression mode ansv "2pi" = evaluateExpression mode ansv "2*pi" ∧
      evaluateExpression mode ansv "2pi" = .ok (.fin (2 * Real.pi)) := by
  refine ⟨insertImplicitMultiplication_eq_spec, fun mode ansv => ⟨?_, eval_2pi mode ansv⟩⟩
  rw [eval_2pi mode ansv, eval_2timespi mode ansv]

/-- C8 (confirmed).  `formatNumber` returns `"Error"` exactly on non-finite
values; negative zero renders as `"0"` (like `+0`); the finite rendering is
the 12-significant-digit rounding (within half an ulp of the 12th digit)
re-stringified; and a rendering with a decimal point never ends in an
insignificant trailing `'0'`. -/
theorem C8_format :
    (∀ n : JSNum, formatNumber n = "Error" ↔ n.isFiniteJS = false) ∧
    formatNumber .negZero = "0" ∧ formatNumber (.fin 0) = "0" ∧
    (∀ x : ℝ, x ≠ 0 →
      |((sig12 x).1 : ℝ) * (10 : ℝ) ^ (sig12 x).2 - x| ≤
        (10 : ℝ) ^ (Int.log 10 |x| - 11) / 2) ∧
    (∀ m k : ℤ, '.' ∈ (renderDec m k).data →
      (renderDec m k).data.getLast? ≠ some '0') :=
  ⟨formatNumber_error_iff, formatNumber_negZero, formatNumber_zero,
    sig12_bound, renderDec_no_trailing_zero⟩

/-- C8: witness instantiating the rounding bound at `x = 1` and the
trailing-zero property at `0.25`. -/
theorem C8_witness :
    ((1:ℝ) ≠ 0 ∧
      |((sig12 (1:ℝ)).1 : ℝ) * (10 : ℝ) ^ (sig12 (1:ℝ)).2 - 1| ≤
        (10 : ℝ) ^ (Int.log 10 |(1:ℝ)| - 11) / 2) ∧
    ('.' ∈ (renderDec 25 (-2)).data ∧
      (renderDec 25 (-2)).data.getLast? ≠ some '0') :=
  ⟨⟨one_ne_zero, C8_format.2.2.2.1 1 one_ne_zero⟩,
    ⟨by decide, C8_format.2.2.2.2 25 (-2) (by decide)⟩⟩

/-- C9 (confirmed).  `toRPN2` fails — necessarily with the
mismatched-parentheses error, the only reachable parse throw — exactly when
some prefix closes more parentheses than it opens or an open parenthesis
remains at the end (`balCheck` rejects); in particular `"(2+3"` fails with
`ParseError::MismatchedParen`. -/
theorem C9_mismatched_paren :
    (∀ ts : List Tok, toRPN2 ts = .error .mismatchedParen ↔ balCheck ts 0 = false) ∧
    ∀ (mode : Mode) (ansv : JSNum),
      evaluateExpression mode ansv "(2+3" = .error (.parse .mismatchedParen) :=
  ⟨toRPN2_error_iff, eval_open_paren⟩

/-- C9: witness applying the characterization at a concrete unbalanced
sequence. -/
theorem C9_witness :
    toRPN2 [Tok.lparen] = .error .mismatchedParen :=
  (C9_mismatched_paren.1 [Tok.lparen]).mpr (by decide)

/-- C10 (corrected).  The concrete behavior holds: `"2^-3"` throws
`"Bad expression"` (the parser pops `^` before its right operand exists, so
the postfix `[2, ^, 3, u-]` underflows) and does not return `0.125`.  But
the universal claim — that EVERY input with `^` immediately followed by
unary minus fails — is false: see `C10_counterexample`. -/
theorem C10_amended :
    (∀ (mode : Mode) (ansv : JSNum),
      evaluateExpression mode ansv "2^-3" = .error (.eval .badExpression) ∧
      evaluateExpression mode ansv "2^-3" ≠ .ok (.fin 0.125)) ∧
    toRPN2 [Tok.num ⟨2, 0⟩, .op .pow, .op .uminus, .num ⟨3, 0⟩] =
      .ok [.num ⟨2, 0⟩, .op .pow, .num ⟨3, 0⟩, .op .uminus] ∧
    rpnDepth [Tok.num ⟨2, 0⟩, .op .pow, .num ⟨3, 0⟩, .op .uminus] 0 = none := by
  refine ⟨fun mode ansv => ⟨eval_2powneg3 mode ansv, ?_⟩, by decide, by decide⟩
  rw [eval_2powneg3 mode ansv]
  simp

/-- C10: counterexample to the universally-quantified claim: the lexer
accepts `"(2)(3)^-4"`, whose token stream contains `^` immediately followed
by unary minus, yet evaluation succeeds, returning `2^3 * (-4) = -32`. -/
theorem C10_counterexample :
    tokenize "(2)(3)^-4" = .ok [.lparen, .num ⟨2, 0⟩, .rparen, .op .mul,
      .lparen, .num ⟨3, 0⟩, .rparen, .op .pow, .op .uminus, .num ⟨4, 0⟩] ∧
    [Tok.op .pow, Tok.op .uminus] <:+: [Tok.lparen, .num ⟨2, 0⟩, .rparen,
      .op .mul, .lparen, .num ⟨3, 0⟩, .rparen, .op .pow, .op .uminus,
      .num ⟨4, 0⟩] ∧
    evaluateExpression .DEG (.fin 0) "(2)(3)^-4" = .ok (.fin (-32)) :=
  ⟨by decide, by decide, eval_paren_pow_uminus .DEG (.fin 0)⟩

end Calc
